import Mathlib

/-! The cage tool of GIMP (`app/tools/gimpcagetool.c`)

A shallow embedding of the cage tool's session logic and of the hit test on
cage handles.

Conventions of the embedding
* `gdouble` values are exact rationals (`ℚ`): rounding, infinities and NaN are
  outside the model.
* `gint` values are integers (`Int`).  The product `handle_size * handle_size`
  of the hit test is the product of the machine: the exact product wrapped
  into 32 bits (`gint_mul`).  The tool itself only ever passes
  `HANDLE_SIZE = 25`.  The vertex count is a natural number, and
  `n_cage_vertices * 2` is exact.
* C arrays are total functions on indices together with the element count; what
  lies beyond the count is whatever the memory holds.
* Pointers to GObjects are `Option` values: `none` is `NULL`.
-/

namespace GimpCage

/-! ## Data model -/

/-- A point with `gdouble` coordinates (`GimpVector2`, also used for the `x`, `y`
of `GimpCoords`). -/
structure GimpVector2 where
  x : ℚ
  y : ℚ
deriving DecidableEq, Repr

/-- The two cage modes of `GimpCageOptions`: editing the cage, deforming it. -/
inductive GimpCageMode
  | CAGE_CHANGE
  | DEFORM
deriving DecidableEq, Repr

/-- The fields of `GimpCageConfig` the tool reads: the vertex count, the two
parallel vertex arrays (original and displaced positions) and the offset of the
drawable. -/
structure GimpCageConfig where
  n_cage_vertices : Nat
  cage_vertices : Nat → GimpVector2
  cage_vertices_d : Nat → GimpVector2
  offset_x : Int
  offset_y : Int

/-- Displays are identified by a number. -/
abbrev GimpDisplay := Nat

/-- The constant `#define HANDLE_SIZE 25`. -/
def HANDLE_SIZE : Int := 25

/-- What the tool asks of code outside `gimpcagetool.c`. -/
structure Env where
  /-- The result of `gimp_draw_tool_calc_distance_square (draw_tool, display, x1, y1, x2, y2)` -/
  calc_distance_square : GimpDisplay → ℚ → ℚ → ℚ → ℚ → ℚ
  /-- The result of `gimp_item_get_offset` of the active drawable of the display's image -/
  item_offset : GimpDisplay → Int × Int
  /-- The function `gimp_cage_config_add_cage_point` -/
  add_cage_point : GimpCageConfig → ℚ → ℚ → GimpCageConfig
  /-- The function `gimp_cage_config_remove_last_cage_point` -/
  remove_last_cage_point : GimpCageConfig → GimpCageConfig
  /-- The function `gimp_cage_config_reverse_cage_if_needed` -/
  reverse_cage_if_needed : GimpCageConfig → GimpCageConfig
  /-- The function `gimp_cage_config_move_cage_point` -/
  move_cage_point : GimpCageConfig → GimpCageMode → Int → ℚ → ℚ → GimpCageConfig
  /-- The test `GIMP_IS_DRAWABLE (gimp_image_get_active_layer (image))` -/
  active_layer_is_drawable : GimpDisplay → Bool
  /-- The test `gimp_layer_get_mask (layer) != NULL` -/
  layer_has_mask : GimpDisplay → Bool

/-! ## The hit test -/

/-- The vertex the loop of `gimp_cage_tool_is_on_handle` looks at in round `i`:
taken from `cage_vertices` in cage-change mode and from `cage_vertices_d`
otherwise, plus the offset of the config. -/
def handle_position (gcc : GimpCageConfig) (mode : GimpCageMode) (i : Nat) : GimpVector2 :=
  if mode = GimpCageMode.CAGE_CHANGE then
    { x := (gcc.cage_vertices i).x + (gcc.offset_x : ℚ),
      y := (gcc.cage_vertices i).y + (gcc.offset_y : ℚ) }
  else
    { x := (gcc.cage_vertices_d i).x + (gcc.offset_x : ℚ),
      y := (gcc.cage_vertices_d i).y + (gcc.offset_y : ℚ) }

/-- The product of two `gint` as the machine computes it: the exact product
wrapped into the 32 bits of a `gint` (two's complement). -/
def gint_mul (a b : Int) : Int :=
  (a * b + 2147483648) % 4294967296 - 2147483648

/-- The test `dist <= (handle_size * handle_size)` of round `i`: the product is
one of two `gint`, converted to `gdouble` for the comparison. -/
def handle_in_range (env : Env) (gcc : GimpCageConfig) (display : GimpDisplay)
    (mode : GimpCageMode) (x y : ℚ) (handle_size : Int) (i : Nat) : Bool :=
  decide (env.calc_distance_square display x y
      (handle_position gcc mode i).x (handle_position gcc mode i).y
    ≤ ((gint_mul handle_size handle_size : Int) : ℚ))

/-- The loop `for (i = 0; i < gcc->n_cage_vertices; i++)`, entered at index `i`
with `todo` rounds left. -/
def is_on_handle_loop (env : Env) (gcc : GimpCageConfig) (display : GimpDisplay)
    (mode : GimpCageMode) (x y : ℚ) (handle_size : Int) : Nat → Nat → Int
  | _, 0 => -1
  | i, todo + 1 =>
    if handle_in_range env gcc display mode x y handle_size i then (i : Int)
    else is_on_handle_loop env gcc display mode x y handle_size (i + 1) todo

/-- The function `gimp_cage_tool_is_on_handle`. A `NULL` config fails the
`g_return_val_if_fail` check and gives -1. -/
def gimp_cage_tool_is_on_handle (env : Env) (gcc : Option GimpCageConfig)
    (display : GimpDisplay) (mode : GimpCageMode) (x y : ℚ) (handle_size : Int) : Int :=
  match gcc with
  | none => -1
  | some c =>
    if c.n_cage_vertices = 0 then -1
    else is_on_handle_loop env c display mode x y handle_size 0 c.n_cage_vertices

/-! ## The session state -/

/-- The coefficient buffer: its identity and the number of float components per
sample of its format (`babl_format_n (babl_type ("float"), n)`). -/
structure GeglBuffer where
  id : Nat
  components : Nat
deriving DecidableEq, Repr

/-- The two drawables a commit renders into. -/
inductive Target
  | layer
  | mask
deriving DecidableEq, Repr

/-- The enum `GimpToolAction`. -/
inductive GimpToolAction
  | PAUSE
  | RESUME
  | HALT
deriving DecidableEq, Repr

/-- The key values `gimp_cage_tool_key_press` tells apart. -/
inductive Key
  | GDK_BackSpace
  | GDK_Return
  | GDK_KP_Enter
  | GDK_ISO_Enter
  | GDK_Escape
  | other
deriving DecidableEq, Repr

/-- Calls into code outside the tool, in the order they are made. A call on a
`NULL` object is recorded with `none`: it is attempted and stopped by the
callee's `g_return_if_fail`. `image_map_commit` is listed for reference: no
function of the tool makes it. -/
inductive Effect
  | tool_control_activate
  | tool_control_halt
  | tool_control_set_preserve (preserve : Bool)
  | draw_tool_start (display : GimpDisplay)
  | draw_tool_stop
  | config_unref
  | add_cage_point (x y : ℚ)
  | remove_last_cage_point
  | move_cage_point (mode : GimpCageMode) (point : Int) (x y : ℚ)
  | reverse_cage_if_needed
  | buffer_destroy (buffer : Nat)
  | image_map_new (image_map : Nat)
  | image_map_apply (image_map : Option Nat)
  | image_map_abort (image_map : Option Nat)
  | image_map_commit (image_map : Option Nat)
  | image_map_is_busy (image_map : Nat)
  | image_map_unref (image_map : Option Nat)
  | node_unref (node : Nat)
  | idle_add (source : Nat)
  | source_remove (source : Nat)
  | progress_start
  | progress_end
  | merge_shadow_tiles (display : GimpDisplay) (target : Target)
  | free_shadow_tiles (display : GimpDisplay) (target : Target)
  | drawable_update (display : GimpDisplay) (target : Target)
  | image_flush (display : Option GimpDisplay)
  | projection_flush_now (display : Option GimpDisplay)
  | display_flush_now (display : Option GimpDisplay)
  | process_without_coef
  | parent_control (action : GimpToolAction)
  | parent_finalize
deriving DecidableEq, Repr

/-- The cage tool: the fields of `GimpCageTool`, the fields of its parent
classes and of its options that the tool reads, and the part of the world it
acts on (the idle sources of the main loop, the calls made so far). -/
structure GimpCageTool where
  /-- The field `tool->display` -/
  display : Option GimpDisplay
  /-- The flag `gimp_tool_control_is_active (tool->control)` -/
  control_active : Bool
  /-- The flag `gimp_draw_tool_is_active (draw_tool)` -/
  draw_active : Bool
  /-- nesting depth of `gimp_draw_tool_pause` -/
  paused_count : Nat
  /-- The option `options->cage_mode` -/
  cage_mode : GimpCageMode
  config : Option GimpCageConfig
  cursor_position : GimpVector2
  handle_moved : Int
  cage_complete : Bool
  coef : Option GeglBuffer
  image_map : Option Nat
  node_preview : Option Nat
  /-- The field `guint idle_id` -/
  idle_id : Nat
  /-- idle sources registered with the main loop -/
  sources : List Nat
  /-- the next unused object or source id -/
  next_id : Nat
  /-- calls made so far, oldest first -/
  log : List Effect

/-- Record a call. -/
def emit (ct : GimpCageTool) (e : Effect) : GimpCageTool :=
  { ct with log := ct.log ++ [e] }

/-- The config made by `g_object_new (GIMP_TYPE_CAGE_CONFIG, NULL)`: an empty cage. -/
def new_cage_config : GimpCageConfig :=
  { n_cage_vertices := 0,
    cage_vertices := fun _ => { x := 0, y := 0 },
    cage_vertices_d := fun _ => { x := 0, y := 0 },
    offset_x := 0,
    offset_y := 0 }

/-- The function `gimp_draw_tool_pause` -/
def gimp_draw_tool_pause (ct : GimpCageTool) : GimpCageTool :=
  { ct with paused_count := ct.paused_count + 1 }

/-- The function `gimp_draw_tool_resume` -/
def gimp_draw_tool_resume (ct : GimpCageTool) : GimpCageTool :=
  { ct with paused_count := ct.paused_count - 1 }

/-- The function `g_source_remove (id)` -/
def g_source_remove (ct : GimpCageTool) (id : Nat) : GimpCageTool :=
  emit { ct with sources := ct.sources.filter (fun s => s ≠ id) } (Effect.source_remove id)

/-- The function `gimp_cage_tool_init`; the cage mode is that of the tool options. -/
def gimp_cage_tool_init (mode : GimpCageMode) : GimpCageTool :=
  { display := none,
    control_active := false,
    draw_active := false,
    paused_count := 0,
    cage_mode := mode,
    config := some new_cage_config,
    cursor_position := { x := 0, y := 0 },
    handle_moved := -1,
    cage_complete := false,
    coef := none,
    image_map := none,
    node_preview := none,
    idle_id := 0,
    sources := [],
    next_id := 1,
    log := [] }

/-! ## The tool's functions -/

/-- The function `gimp_cage_tool_halt` -/
def gimp_cage_tool_halt (ct : GimpCageTool) : GimpCageTool :=
  let ct := if ct.draw_active then emit { ct with draw_active := false } Effect.draw_tool_stop
    else ct
  let ct := if ct.control_active then
      emit { ct with control_active := false } Effect.tool_control_halt
    else ct
  let ct := match ct.config with
    | some _ => { emit ct Effect.config_unref with config := none }
    | none => ct
  let ct := match ct.coef with
    | some b => { emit ct (Effect.buffer_destroy b.id) with coef := none }
    | none => ct
  let ct := match ct.image_map with
    | some m =>
      let ct := if ct.idle_id > 0 then { g_source_remove ct ct.idle_id with idle_id := 0 } else ct
      let ct := emit ct (Effect.tool_control_set_preserve true)
      let ct := emit ct (Effect.image_map_abort (some m))
      let ct := emit ct (Effect.image_map_unref (some m))
      let ct := { ct with image_map := none }
      let ct := emit ct (Effect.tool_control_set_preserve false)
      emit ct (Effect.image_flush ct.display)
    | none => ct
  let ct := match ct.node_preview with
    | some n => { emit ct (Effect.node_unref n) with node_preview := none }
    | none => ct
  { ct with display := none }

/-- The function `gimp_cage_tool_finalize` -/
def gimp_cage_tool_finalize (ct : GimpCageTool) : GimpCageTool :=
  emit (gimp_cage_tool_halt ct) Effect.parent_finalize

/-- The function `gimp_cage_tool_control`; the handler of the parent class is recorded as a
call. -/
def gimp_cage_tool_control (ct : GimpCageTool) (action : GimpToolAction) : GimpCageTool :=
  let ct := match action with
    | GimpToolAction.PAUSE => ct
    | GimpToolAction.RESUME => ct
    | GimpToolAction.HALT => gimp_cage_tool_halt ct
  emit ct (Effect.parent_control action)

/-- The function `gimp_cage_tool_start`. The old config and preview job are released, and
only `config` is given a new value. -/
def gimp_cage_tool_start (env : Env) (ct : GimpCageTool) (display : GimpDisplay) :
    GimpCageTool :=
  let ct := emit { ct with control_active := true } Effect.tool_control_activate
  let ct := { ct with display := some display }
  let ct := match ct.config with
    | some _ => emit ct Effect.config_unref
    | none => ct
  let ct := match ct.image_map with
    | some m => emit (emit ct (Effect.image_map_abort (some m))) (Effect.image_map_unref (some m))
    | none => ct
  let ct := { ct with
    config := some { new_cage_config with
      offset_x := (env.item_offset display).1,
      offset_y := (env.item_offset display).2 },
    cursor_position := { x := -1000, y := -1000 },
    handle_moved := -1,
    cage_complete := false }
  emit { ct with draw_active := true } (Effect.draw_tool_start display)

/-- The function `gimp_cage_tool_remove_last_handle` -/
def gimp_cage_tool_remove_last_handle (env : Env) (ct : GimpCageTool) : GimpCageTool :=
  let ct := gimp_draw_tool_pause ct
  let ct := emit { ct with config := ct.config.map env.remove_last_cage_point }
    Effect.remove_last_cage_point
  gimp_draw_tool_resume ct

/-- The function `gimp_cage_tool_switch_to_deform` -/
def gimp_cage_tool_switch_to_deform (ct : GimpCageTool) : GimpCageTool :=
  { ct with cage_mode := GimpCageMode.DEFORM }

/-- The function `gimp_cage_tool_compute_coef`: the old buffer, if any, is destroyed and a
new one with `n_cage_vertices * 2` float components is computed. Reading the
vertex count of a `NULL` config is a crash (`none`). -/
def gimp_cage_tool_compute_coef (ct : GimpCageTool) (_display : GimpDisplay) :
    Option GimpCageTool :=
  match ct.config with
  | none => none
  | some config =>
    let ct := match ct.coef with
      | some b => { emit ct (Effect.buffer_destroy b.id) with coef := none }
      | none => ct
    let ct := emit ct Effect.progress_start
    let ct := emit ct Effect.progress_end
    some { ct with
      coef := some { id := ct.next_id, components := config.n_cage_vertices * 2 },
      next_id := ct.next_id + 1 }

/-- The function `gimp_cage_tool_prepare_preview`: a new preview graph and a new preview job
(`gimp_image_map_new`). -/
def gimp_cage_tool_prepare_preview (ct : GimpCageTool) (_display : GimpDisplay) :
    GimpCageTool :=
  let ct := match ct.node_preview with
    | some n => { emit ct (Effect.node_unref n) with node_preview := none }
    | none => ct
  let ct := { ct with node_preview := some ct.next_id, next_id := ct.next_id + 1 }
  emit { ct with image_map := some ct.next_id, next_id := ct.next_id + 1 }
    (Effect.image_map_new ct.next_id)

/-- The function `gimp_cage_tool_process_drawable` on a drawable that passes
`GIMP_IS_DRAWABLE`: render into the shadow tiles and merge them. -/
def gimp_cage_tool_process_drawable (ct : GimpCageTool) (display : GimpDisplay)
    (target : Target) : GimpCageTool :=
  let ct := emit ct (Effect.merge_shadow_tiles display target)
  let ct := emit ct (Effect.free_shadow_tiles display target)
  emit ct (Effect.drawable_update display target)

/-- The function `gimp_cage_tool_process` -/
def gimp_cage_tool_process (env : Env) (ct : GimpCageTool) (display : GimpDisplay) :
    GimpCageTool :=
  match ct.coef with
  | none => emit ct Effect.process_without_coef
  | some _ =>
    if env.active_layer_is_drawable display then
      let ct := emit ct Effect.progress_start
      let ct := gimp_cage_tool_process_drawable ct display Target.layer
      let ct := emit ct Effect.progress_end
      let ct := if env.layer_has_mask display then
          let ct := emit ct Effect.progress_start
          let ct := gimp_cage_tool_process_drawable ct display Target.mask
          emit ct Effect.progress_end
        else ct
      let ct := emit ct (Effect.image_flush (some display))
      gimp_cage_tool_halt ct
    else ct

/-- The function `gimp_cage_tool_key_press`: the returned flag and the new state. -/
def gimp_cage_tool_key_press (env : Env) (ct : GimpCageTool) (kevent : Key)
    (display : GimpDisplay) : Bool × GimpCageTool :=
  let commit : Bool × GimpCageTool :=
    if ct.cage_complete then
      let ct := emit ct (Effect.image_map_abort ct.image_map)
      let ct := emit ct (Effect.image_map_unref ct.image_map)
      let ct := { ct with image_map := none }
      let ct := if ct.idle_id ≠ 0 then { g_source_remove ct ct.idle_id with idle_id := 0 } else ct
      (true, gimp_cage_tool_process env ct display)
    else (true, ct)
  match kevent with
  | Key.GDK_BackSpace => (true, gimp_cage_tool_remove_last_handle env ct)
  | Key.GDK_Return => commit
  | Key.GDK_KP_Enter => commit
  | Key.GDK_ISO_Enter => commit
  | Key.GDK_Escape => (true, gimp_cage_tool_halt ct)
  | Key.other => (false, ct)

/-- The function `gimp_cage_tool_motion` -/
def gimp_cage_tool_motion (env : Env) (ct : GimpCageTool) (coords : GimpVector2) :
    GimpCageTool :=
  let ct := gimp_draw_tool_pause ct
  let moved : Option GimpCageConfig := ct.config.map
    (fun c => env.move_cage_point c ct.cage_mode ct.handle_moved coords.x coords.y)
  let ct := if ct.handle_moved ≥ 0 then
      emit { ct with config := moved }
        (Effect.move_cage_point ct.cage_mode ct.handle_moved coords.x coords.y)
    else ct
  gimp_draw_tool_resume ct

/-- The function `gimp_cage_tool_oper_update` -/
def gimp_cage_tool_oper_update (env : Env) (ct : GimpCageTool) (coords : GimpVector2)
    (display : GimpDisplay) : GimpCageTool :=
  let active_handle : Int :=
    if ct.config.isSome then
      gimp_cage_tool_is_on_handle env ct.config display ct.cage_mode coords.x coords.y
        HANDLE_SIZE
    else -1
  if ¬ ct.cage_complete ∨ active_handle > -1 then
    gimp_draw_tool_resume { gimp_draw_tool_pause ct with cursor_position := coords }
  else ct

/-- The part of `gimp_cage_tool_button_press` before the closing test: the
restart on another display, the hit test with the cancelling of the preview
poll, and the adding of a vertex. -/
def button_press_grab_or_add (env : Env) (ct : GimpCageTool) (coords : GimpVector2)
    (display : GimpDisplay) : GimpCageTool :=
  let ct := if ct.display ≠ some display then gimp_cage_tool_start env ct display else ct
  let ct := gimp_draw_tool_pause ct
  let on_handle : Int :=
    gimp_cage_tool_is_on_handle env ct.config display ct.cage_mode coords.x coords.y HANDLE_SIZE
  let ct := if ct.handle_moved < 0 then
      let ct := { ct with handle_moved := on_handle }
      if ct.handle_moved > 0 ∧ ct.idle_id > 0 then
        { g_source_remove ct ct.idle_id with idle_id := 0 }
      else ct
    else ct
  let added : Option GimpCageConfig :=
    ct.config.map (fun c => env.add_cage_point c coords.x coords.y)
  let ct := if ct.handle_moved < 0 ∧ ¬ ct.cage_complete then
      emit { ct with config := added } (Effect.add_cage_point coords.x coords.y)
    else ct
  gimp_draw_tool_resume ct

/-- The body of the closing branch of `gimp_cage_tool_button_press`. -/
def button_press_close (env : Env) (ct : GimpCageTool) (display : GimpDisplay) :
    Option GimpCageTool :=
  let ct := { ct with cage_complete := true }
  let ct := gimp_cage_tool_switch_to_deform ct
  let ct := emit { ct with config := ct.config.map env.reverse_cage_if_needed }
    Effect.reverse_cage_if_needed
  (gimp_cage_tool_compute_coef ct display).map
    (fun ct => gimp_cage_tool_prepare_preview ct display)

/-- The function `gimp_cage_tool_button_press`. The closing test reads
`config->n_cage_vertices` once `handle_moved == 0` holds: with a `NULL` config
that is a crash (`none`). -/
def gimp_cage_tool_button_press (env : Env) (ct : GimpCageTool) (coords : GimpVector2)
    (display : GimpDisplay) : Option GimpCageTool :=
  let ct := button_press_grab_or_add env ct coords display
  if ct.handle_moved = 0 then
    match ct.config with
    | none => none
    | some config =>
      if config.n_cage_vertices > 2 ∧ ct.coef = none then button_press_close env ct display
      else some ct
  else some ct

/-- The function `gimp_cage_tool_button_release` -/
def gimp_cage_tool_button_release (ct : GimpCageTool) : GimpCageTool :=
  let ct := if ct.coef ≠ none ∧ ct.handle_moved > -1 then
      let ct := gimp_draw_tool_pause ct
      let ct := emit ct (Effect.image_map_apply ct.image_map)
      let ct := emit { ct with
          idle_id := ct.next_id,
          sources := ct.sources ++ [ct.next_id],
          next_id := ct.next_id + 1 }
        (Effect.idle_add ct.next_id)
      gimp_draw_tool_resume ct
    else ct
  { ct with handle_moved := -1 }

/-- The function `gimp_cage_tool_update_preview`, the idle callback; `busy` is the answer of
`gimp_image_map_is_busy`, asked only when a preview job is held. -/
def gimp_cage_tool_update_preview (ct : GimpCageTool) (busy : Bool) : Bool × GimpCageTool :=
  match ct.image_map with
  | none => (false, { ct with idle_id := 0 })
  | some m =>
    let ct := emit ct (Effect.image_map_is_busy m)
    if ¬ busy then
      let ct := { ct with idle_id := 0 }
      let ct := emit ct (Effect.projection_flush_now ct.display)
      let ct := emit ct (Effect.display_flush_now ct.display)
      (false, ct)
    else (true, ct)

/-! ## Events and reachable states -/

/-- What can happen to a tool: the handlers the tool framework calls, the main
loop running a registered preview poll, and the user changing the cage mode in
the tool options. -/
inductive Event
  | button_press (coords : GimpVector2) (display : GimpDisplay)
  | button_release
  | motion (coords : GimpVector2)
  | key_press (kevent : Key) (display : GimpDisplay)
  | control (action : GimpToolAction)
  | oper_update (coords : GimpVector2) (display : GimpDisplay)
  | idle (source : Nat) (busy : Bool)
  | set_cage_mode (mode : GimpCageMode)

/-- The main loop runs the idle source `source`, which must be registered; a
callback that returns `FALSE` is taken off the main loop. -/
def dispatch_idle (ct : GimpCageTool) (source : Nat) (busy : Bool) : Option GimpCageTool :=
  if source ∈ ct.sources then
    let r := gimp_cage_tool_update_preview ct busy
    if r.1 then some r.2
    else some { r.2 with sources := r.2.sources.filter (fun s => s ≠ source) }
  else none

/-- One event; `none` when the event cannot happen or the handler crashes. -/
def step (env : Env) (ct : GimpCageTool) : Event → Option GimpCageTool
  | Event.button_press coords display => gimp_cage_tool_button_press env ct coords display
  | Event.button_release => some (gimp_cage_tool_button_release ct)
  | Event.motion coords => some (gimp_cage_tool_motion env ct coords)
  | Event.key_press kevent display => some (gimp_cage_tool_key_press env ct kevent display).2
  | Event.control action => some (gimp_cage_tool_control ct action)
  | Event.oper_update coords display => some (gimp_cage_tool_oper_update env ct coords display)
  | Event.idle source busy => dispatch_idle ct source busy
  | Event.set_cage_mode mode => some { ct with cage_mode := mode }

/-- A sequence of events, from the left. -/
def run (env : Env) (ct : GimpCageTool) : List Event → Option GimpCageTool
  | [] => some ct
  | e :: es => (step env ct e).bind (fun ct => run env ct es)

/-- The states a tool can be in: those that events lead to from a new tool. -/
inductive Reachable (env : Env) : GimpCageTool → Prop
  | init (mode : GimpCageMode) : Reachable env (gimp_cage_tool_init mode)
  | step (ct ct2 : GimpCageTool) (e : Event) :
      Reachable env ct → step env ct e = some ct2 → Reachable env ct2

/-! ## The cage config, from the spec -/

/-- Modelled from the spec: `gimp_draw_tool_calc_distance_square`, which is not
among the sources at hand. The hit test of the spec compares the "Euclidean
squared distance" of the vertex to the query point. -/
def euclidean_distance_square (x1 y1 x2 y2 : ℚ) : ℚ :=
  (x2 - x1) * (x2 - x1) + (y2 - y1) * (y2 - y1)

/-- Modelled from the spec: `gimp_cage_config_add_cage_point`
(`gegl/gimpcageconfig.c` is not among the sources at hand). "addVertex(x, y):
appends to the end of the ordered sequence"; the new vertex gets the clicked
place as its original and as its displaced position. Positions are kept relative
to the drawable, as the readers in the tool add the offset of the config back. -/
def gimp_cage_config_add_cage_point (gcc : GimpCageConfig) (x y : ℚ) : GimpCageConfig :=
  let v : GimpVector2 := { x := x - (gcc.offset_x : ℚ), y := y - (gcc.offset_y : ℚ) }
  { gcc with
    cage_vertices := Function.update gcc.cage_vertices gcc.n_cage_vertices v,
    cage_vertices_d := Function.update gcc.cage_vertices_d gcc.n_cage_vertices v,
    n_cage_vertices := gcc.n_cage_vertices + 1 }

/-- Modelled from the spec: `gimp_cage_config_remove_last_cage_point`
(`gegl/gimpcageconfig.c` is not among the sources at hand). "removeLastVertex():
pops the last appended vertex; idempotent no-op on empty list". The function
gets the config alone: it is the caller who knows whether the cage is closed. -/
def gimp_cage_config_remove_last_cage_point (gcc : GimpCageConfig) : GimpCageConfig :=
  if gcc.n_cage_vertices > 0 then { gcc with n_cage_vertices := gcc.n_cage_vertices - 1 }
  else gcc

/-- Modelled from the spec: `gimp_cage_config_move_cage_point`
(`gegl/gimpcageconfig.c` is not among the sources at hand). "moveVertex(index,
x, y): mutates the position representation matching current mode (original if
Editing, displaced if Deforming). Fails silently (no-op) if index out of
range." -/
def gimp_cage_config_move_cage_point (gcc : GimpCageConfig) (mode : GimpCageMode)
    (point : Int) (x y : ℚ) : GimpCageConfig :=
  let v : GimpVector2 := { x := x - (gcc.offset_x : ℚ), y := y - (gcc.offset_y : ℚ) }
  if 0 ≤ point ∧ point < (gcc.n_cage_vertices : Int) then
    if mode = GimpCageMode.CAGE_CHANGE then
      { gcc with cage_vertices := Function.update gcc.cage_vertices point.toNat v }
    else
      { gcc with cage_vertices_d := Function.update gcc.cage_vertices_d point.toNat v }
  else gcc

/-- Modelled from the spec: the "signed area of the polygon" that
`gimp_cage_config_reverse_cage_if_needed` looks at, here twice that area (the
shoelace sum) over the original positions. -/
def signed_area_twice (gcc : GimpCageConfig) : ℚ :=
  ((List.range gcc.n_cage_vertices).map (fun i =>
    (gcc.cage_vertices i).x * (gcc.cage_vertices ((i + 1) % gcc.n_cage_vertices)).y
    - (gcc.cage_vertices ((i + 1) % gcc.n_cage_vertices)).x * (gcc.cage_vertices i).y)).sum

/-- Modelled from the spec: `gimp_cage_config_reverse_cage_if_needed`
(`gegl/gimpcageconfig.c` is not among the sources at hand). "if the signed area
of the polygon is of the wrong sign, reverse the vertex sequence in place". The
spec leaves the wrong sign open; it is taken to be the negative one. -/
def gimp_cage_config_reverse_cage_if_needed (gcc : GimpCageConfig) : GimpCageConfig :=
  if signed_area_twice gcc < 0 then
    { gcc with
      cage_vertices := fun i =>
        if i < gcc.n_cage_vertices then gcc.cage_vertices (gcc.n_cage_vertices - 1 - i)
        else gcc.cage_vertices i,
      cage_vertices_d := fun i =>
        if i < gcc.n_cage_vertices then gcc.cage_vertices_d (gcc.n_cage_vertices - 1 - i)
        else gcc.cage_vertices_d i }
  else gcc

/-- Modelled from the spec: the surroundings of the tool, put together from the
cage config functions and the distance of the spec, for drawables without offset
and an image with an active layer without mask. -/
def spec_env : Env :=
  { calc_distance_square := fun _ x1 y1 x2 y2 => euclidean_distance_square x1 y1 x2 y2,
    item_offset := fun _ => (0, 0),
    add_cage_point := gimp_cage_config_add_cage_point,
    remove_last_cage_point := gimp_cage_config_remove_last_cage_point,
    reverse_cage_if_needed := gimp_cage_config_reverse_cage_if_needed,
    move_cage_point := gimp_cage_config_move_cage_point,
    active_layer_is_drawable := fun _ => true,
    layer_has_mask := fun _ => false }

/-! ## Observing a session -/

/-- The calls made between two states of one session. -/
def calls_during (before after : GimpCageTool) : List Effect :=
  after.log.drop before.log.length

/-- The calls one halt makes, read off `gimp_cage_tool_halt`. -/
def halt_calls (ct : GimpCageTool) : List Effect :=
  (if ct.draw_active then [Effect.draw_tool_stop] else [])
  ++ (if ct.control_active then [Effect.tool_control_halt] else [])
  ++ (match ct.config with
      | some _ => [Effect.config_unref]
      | none => [])
  ++ (match ct.coef with
      | some b => [Effect.buffer_destroy b.id]
      | none => [])
  ++ (match ct.image_map with
      | some m =>
        (if ct.idle_id > 0 then [Effect.source_remove ct.idle_id] else [])
        ++ [Effect.tool_control_set_preserve true, Effect.image_map_abort (some m),
            Effect.image_map_unref (some m), Effect.tool_control_set_preserve false,
            Effect.image_flush ct.display]
      | none => [])
  ++ (match ct.node_preview with
      | some n => [Effect.node_unref n]
      | none => [])

/-- The fields of a tool that can be compared by computation. -/
structure Snapshot where
  display : Option GimpDisplay
  cage_mode : GimpCageMode
  n_cage_vertices : Option Nat
  handle_moved : Int
  cage_complete : Bool
  coef : Option GeglBuffer
  image_map : Option Nat
  node_preview : Option Nat
  idle_id : Nat
  sources : List Nat
deriving DecidableEq, Repr

/-- The snapshot of a tool; of the config it keeps the vertex count. -/
def snapshot (ct : GimpCageTool) : Snapshot :=
  { display := ct.display,
    cage_mode := ct.cage_mode,
    n_cage_vertices := ct.config.map (fun c => c.n_cage_vertices),
    handle_moved := ct.handle_moved,
    cage_complete := ct.cage_complete,
    coef := ct.coef,
    image_map := ct.image_map,
    node_preview := ct.node_preview,
    idle_id := ct.idle_id,
    sources := ct.sources }

/-- What holds of every reachable state: a tool on a display has a config, and
a completed cage on a display has its coefficient buffer. -/
def Consistent (ct : GimpCageTool) : Prop :=
  (ct.display ≠ none → ct.config ≠ none) ∧
  (ct.display ≠ none → ct.cage_complete = true → ct.coef ≠ none)

/-! ## Sample cages and sessions -/

/-- The surroundings of `spec_env` for an image whose active drawable is a
channel: it has no active layer. -/
def channel_env : Env :=
  { spec_env with active_layer_is_drawable := fun _ => false }

/-- Three clicks that place the vertices (0,0), (100,0), (0,100). -/
def triangle_clicks (display : GimpDisplay) : List Event :=
  [Event.button_press { x := 0, y := 0 } display, Event.button_release,
   Event.button_press { x := 100, y := 0 } display, Event.button_release,
   Event.button_press { x := 0, y := 100 } display, Event.button_release]

/-- The three clicks of `triangle_clicks` and a click on the first handle, which
closes the cage. -/
def closing_clicks (display : GimpDisplay) : List Event :=
  triangle_clicks display
    ++ [Event.button_press { x := 0, y := 0 } display, Event.button_release]


/-- A cage of two handles one unit apart, at (0,0) and (1,0). -/
def two_close_handles : GimpCageConfig :=
  { new_cage_config with
    n_cage_vertices := 2,
    cage_vertices := fun i => if i = 0 then { x := 0, y := 0 } else { x := 1, y := 0 },
    cage_vertices_d := fun i => if i = 0 then { x := 0, y := 0 } else { x := 1, y := 0 } }

/-- A cage of one handle, at (0,0). -/
def one_handle_cage : GimpCageConfig :=
  { new_cage_config with
    n_cage_vertices := 1,
    cage_vertices := fun _ => { x := 0, y := 0 },
    cage_vertices_d := fun _ => { x := 0, y := 0 } }

/-- A session on display 0 with an empty cage. -/
def started_session : GimpCageTool :=
  gimp_cage_tool_start spec_env (gimp_cage_tool_init GimpCageMode.CAGE_CHANGE) 0

/-- The session after `closing_clicks` on display 0: a closed triangle. -/
def closed_session : GimpCageTool :=
  (run spec_env (gimp_cage_tool_init GimpCageMode.CAGE_CHANGE) (closing_clicks 0)).getD
    (gimp_cage_tool_init GimpCageMode.CAGE_CHANGE)

/-- The session after `triangle_clicks` on display 0: three vertices, the cage
still open. -/
def triangle_session : GimpCageTool :=
  (run spec_env (gimp_cage_tool_init GimpCageMode.CAGE_CHANGE) (triangle_clicks 0)).getD
    (gimp_cage_tool_init GimpCageMode.CAGE_CHANGE)

/-- The session after clicks at (0,0) and (100,0) on display 0: two vertices. -/
def two_vertex_session : GimpCageTool :=
  (run spec_env (gimp_cage_tool_init GimpCageMode.CAGE_CHANGE)
    [Event.button_press { x := 0, y := 0 } 0, Event.button_release,
     Event.button_press { x := 100, y := 0 } 0, Event.button_release]).getD
    (gimp_cage_tool_init GimpCageMode.CAGE_CHANGE)

/-- The session after `closing_clicks` on display 0 and a button press at (0,0)
on display 1: the press starts a new cage on display 1. -/
def restarted_session : GimpCageTool :=
  (run spec_env (gimp_cage_tool_init GimpCageMode.CAGE_CHANGE)
    (closing_clicks 0 ++ [Event.button_press { x := 0, y := 0 } 1])).getD
    (gimp_cage_tool_init GimpCageMode.CAGE_CHANGE)

/-- The session on an image without active layer after `closing_clicks` on
display 0, the Return key and a button press on the handle at (100,0). -/
def uncommitted_session : GimpCageTool :=
  (run channel_env (gimp_cage_tool_init GimpCageMode.CAGE_CHANGE)
    (closing_clicks 0 ++ [Event.key_press Key.GDK_Return 0,
      Event.button_press { x := 100, y := 0 } 0])).getD
    (gimp_cage_tool_init GimpCageMode.CAGE_CHANGE)

/-- What else holds of every reachable state: a tool that is on no display and
has a completed cage has been halted, so it has neither config nor preview
graph. -/
def OffReleased (ct : GimpCageTool) : Prop :=
  ct.display = none → ct.cage_complete = true → ct.config = none ∧ ct.node_preview = none

/-! ## Watching a sequence of events -/

/-- The calls that the facts about whole sessions look for: the merge of shadow
tiles into a drawable, the commit of a preview job, the normalisation of the
winding order. -/
def watched : Effect → Bool
  | Effect.merge_shadow_tiles _ _ => true
  | Effect.image_map_commit _ => true
  | Effect.reverse_cage_if_needed => true
  | _ => false

/-- The keys that commit: Return, KP_Enter, ISO_Enter. -/
def is_commit_key : Key → Bool
  | Key.GDK_Return => true
  | Key.GDK_KP_Enter => true
  | Key.GDK_ISO_Enter => true
  | _ => false

/-- Whether the handler of an event calls `gimp_cage_tool_halt` in this state:
the Escape key, the HALT action, and a commit key that gets to render. -/
def halts (env : Env) (ct : GimpCageTool) : Event → Bool
  | Event.key_press kevent display =>
    decide (kevent = Key.GDK_Escape)
      || (is_commit_key kevent && ct.cage_complete && ct.coef.isSome
          && env.active_layer_is_drawable display)
  | Event.control action => decide (action = GimpToolAction.HALT)
  | _ => false

/-- Whether no event of a sequence, run from this state, halts the tool. -/
def halt_free (env : Env) : GimpCageTool → List Event → Bool
  | _, [] => true
  | ct, e :: es =>
    !halts env ct e &&
      (match step env ct e with
       | some ct1 => halt_free env ct1 es
       | none => true)

/-- The merges of shadow tiles that `gimp_cage_tool_process` makes. -/
def process_merges (env : Env) (ct : GimpCageTool) (display : GimpDisplay) : List Effect :=
  if ct.coef ≠ none ∧ env.active_layer_is_drawable display = true then
    Effect.merge_shadow_tiles display Target.layer ::
      (if env.layer_has_mask display then [Effect.merge_shadow_tiles display Target.mask]
       else [])
  else []

/-- The clicks of `closing_clicks` on display 0 and two more clicks on the first
handle of the closed cage. -/
def closing_and_more_clicks : List Event :=
  closing_clicks 0
    ++ [Event.button_press { x := 0, y := 0 } 0, Event.button_release,
        Event.button_press { x := 0, y := 0 } 0, Event.button_release]

/-! ## Facts about the hit test -/

/-- The loop entered at index `i` with `todo` rounds left either finds nothing in
`i .. i + todo - 1` and gives -1, or gives the first index of that range that is
in range. -/
theorem is_on_handle_loop_spec (env : Env) (gcc : GimpCageConfig) (display : GimpDisplay)
    (mode : GimpCageMode) (x y : ℚ) (handle_size : Int) (todo : Nat) :
    ∀ i : Nat,
      (is_on_handle_loop env gcc display mode x y handle_size i todo = -1 ∧
        ∀ j, i ≤ j → j < i + todo →
          handle_in_range env gcc display mode x y handle_size j = false) ∨
      (∃ k : Nat, is_on_handle_loop env gcc display mode x y handle_size i todo = (k : Int) ∧
        i ≤ k ∧ k < i + todo ∧
        handle_in_range env gcc display mode x y handle_size k = true ∧
        ∀ j, i ≤ j → j < k →
          handle_in_range env gcc display mode x y handle_size j = false) := by
  induction todo with
  | zero =>
    intro i
    left
    refine ⟨rfl, ?_⟩
    intro j h1 h2
    omega
  | succ t ih =>
    intro i
    by_cases hi : handle_in_range env gcc display mode x y handle_size i = true
    · right
      refine ⟨i, ?_, le_refl i, by omega, hi, ?_⟩
      · simp [is_on_handle_loop, hi]
      · intro j h1 h2
        omega
    · have hi2 : handle_in_range env gcc display mode x y handle_size i = false := by
        simpa using hi
      have hstep : is_on_handle_loop env gcc display mode x y handle_size i (t + 1)
          = is_on_handle_loop env gcc display mode x y handle_size (i + 1) t := by
        simp [is_on_handle_loop, hi2]
      rcases ih (i + 1) with ⟨h1, h2⟩ | ⟨k, h1, h2, h3, h4, h5⟩
      · left
        refine ⟨by rw [hstep, h1], ?_⟩
        intro j hj1 hj2
        by_cases hji : j = i
        · rw [hji]; exact hi2
        · exact h2 j (by omega) (by omega)
      · right
        refine ⟨k, by rw [hstep, h1], by omega, by omega, h4, ?_⟩
        intro j hj1 hj2
        by_cases hji : j = i
        · rw [hji]; exact hi2
        · exact h5 j (by omega) hj2


/-- The hit test on a config is the loop over all its vertices. -/
theorem is_on_handle_eq_loop (env : Env) (gcc : GimpCageConfig) (display : GimpDisplay)
    (mode : GimpCageMode) (x y : ℚ) (handle_size : Int) :
    gimp_cage_tool_is_on_handle env (some gcc) display mode x y handle_size
      = is_on_handle_loop env gcc display mode x y handle_size 0 gcc.n_cage_vertices := by
  unfold gimp_cage_tool_is_on_handle
  by_cases h : gcc.n_cage_vertices = 0
  · simp [h, is_on_handle_loop]
  · simp [h]

/-- The hit test gives -1 or the first index in range. -/
theorem is_on_handle_cases (env : Env) (gcc : GimpCageConfig) (display : GimpDisplay)
    (mode : GimpCageMode) (x y : ℚ) (handle_size : Int) :
    (gimp_cage_tool_is_on_handle env (some gcc) display mode x y handle_size = -1 ∧
      ∀ j, j < gcc.n_cage_vertices →
        handle_in_range env gcc display mode x y handle_size j = false) ∨
    (∃ k : Nat,
      gimp_cage_tool_is_on_handle env (some gcc) display mode x y handle_size = (k : Int) ∧
      k < gcc.n_cage_vertices ∧
      handle_in_range env gcc display mode x y handle_size k = true ∧
      ∀ j, j < k → handle_in_range env gcc display mode x y handle_size j = false) := by
  rw [is_on_handle_eq_loop]
  rcases is_on_handle_loop_spec env gcc display mode x y handle_size gcc.n_cage_vertices 0 with
    ⟨h1, h2⟩ | ⟨k, h1, _, h3, h4, h5⟩
  · left
    exact ⟨h1, fun j hj => h2 j (Nat.zero_le j) (by omega)⟩
  · right
    exact ⟨k, h1, by omega, h4, fun j hj => h5 j (Nat.zero_le j) hj⟩

/-- A product that fits a `gint` is computed exactly. -/
theorem gint_mul_fits (a b : Int) (h1 : -2147483648 ≤ a * b) (h2 : a * b ≤ 2147483647) :
    gint_mul a b = a * b := by
  unfold gint_mul
  generalize a * b = p at *
  omega

/-- The square of a handle size between -46340 and 46340 fits a `gint`. -/
theorem gint_mul_self_fits (handle_size : Int) (h1 : -46340 ≤ handle_size)
    (h2 : handle_size ≤ 46340) :
    gint_mul handle_size handle_size = handle_size * handle_size := by
  apply gint_mul_fits
  · nlinarith [mul_self_nonneg handle_size]
  · nlinarith [mul_nonneg (sub_nonneg.2 h2) (sub_nonneg.2 h1)]

/-- C1, as the claim states it for every handle size, fails: the square of the
handle size 46341 does not fit a `gint` and wraps to a negative number, so with
distances that are not negative the hit test gives -1 on every cage. On a cage
with its one handle at (0,0) the hit test at (0,0) gives -1, although the
handle is at squared distance 0 from the query point. -/
theorem is_on_handle_square_overflow :
    gint_mul 46341 46341 = -2147479015 ∧
    (∀ (env : Env) (gcc : GimpCageConfig) (display : GimpDisplay) (mode : GimpCageMode)
        (x y : ℚ),
      (∀ j, j < gcc.n_cage_vertices →
        0 ≤ env.calc_distance_square display x y
          (handle_position gcc mode j).x (handle_position gcc mode j).y) →
      gimp_cage_tool_is_on_handle env (some gcc) display mode x y 46341 = -1) ∧
    gimp_cage_tool_is_on_handle spec_env (some one_handle_cage) 0 GimpCageMode.CAGE_CHANGE
      0 0 46341 = -1 ∧
    one_handle_cage.n_cage_vertices = 1 ∧
    euclidean_distance_square 0 0
        (handle_position one_handle_cage GimpCageMode.CAGE_CHANGE 0).x
        (handle_position one_handle_cage GimpCageMode.CAGE_CHANGE 0).y
      ≤ ((46341 * 46341 : Int) : ℚ) ∧
    ¬ (∀ (env : Env) (gcc : GimpCageConfig) (display : GimpDisplay) (mode : GimpCageMode)
        (x y : ℚ) (handle_size : Int),
        gimp_cage_tool_is_on_handle env (some gcc) display mode x y handle_size = -1 ↔
          ∀ j, j < gcc.n_cage_vertices →
            ¬ env.calc_distance_square display x y
                (handle_position gcc mode j).x (handle_position gcc mode j).y
              ≤ ((handle_size * handle_size : Int) : ℚ)) := by
  have h2 : gimp_cage_tool_is_on_handle spec_env (some one_handle_cage) 0
      GimpCageMode.CAGE_CHANGE 0 0 46341 = -1 := by decide!
  have h4 : euclidean_distance_square 0 0
        (handle_position one_handle_cage GimpCageMode.CAGE_CHANGE 0).x
        (handle_position one_handle_cage GimpCageMode.CAGE_CHANGE 0).y
      ≤ ((46341 * 46341 : Int) : ℚ) := by decide!
  have hw : gint_mul 46341 46341 = -2147479015 := by decide
  refine ⟨hw, ?_, h2, rfl, h4, ?_⟩
  · intro env gcc display mode x y hpos
    rcases is_on_handle_cases env gcc display mode x y 46341 with ⟨h1, _⟩ | ⟨k, _, hk, hin, _⟩
    · exact h1
    · exfalso
      have h0 := hpos k hk
      simp only [handle_in_range, hw, decide_eq_true_eq] at hin
      have hneg : (((-2147479015 : Int)) : ℚ) < 0 := by norm_num
      linarith
  · intro h
    exact (h spec_env one_handle_cage 0 GimpCageMode.CAGE_CHANGE 0 0 46341).1 h2 0
      (by decide) h4

/-- C1, amended: for every cage config, mode and query point, and for every
handle size whose square fits a `gint` (a size between -46340 and 46340, as
`HANDLE_SIZE` is), `gimp_cage_tool_is_on_handle` returns the smallest index
whose vertex (from the array the mode selects, plus the offset of the config)
has squared distance to the query point at most `handle_size * handle_size`,
and -1 exactly when no vertex has (so for an empty cage); it is the first
vertex in range that wins, not the nearest one. -/
theorem is_on_handle_first_match (env : Env) (gcc : GimpCageConfig) (display : GimpDisplay)
    (mode : GimpCageMode) (x y : ℚ) (handle_size : Int)
    (hlo : -46340 ≤ handle_size) (hhi : handle_size ≤ 46340) :
    (∀ i : Nat,
      gimp_cage_tool_is_on_handle env (some gcc) display mode x y handle_size = (i : Int) ↔
        (i < gcc.n_cage_vertices ∧
          env.calc_distance_square display x y
              (handle_position gcc mode i).x (handle_position gcc mode i).y
            ≤ ((handle_size * handle_size : Int) : ℚ) ∧
          ∀ j, j < i →
            ¬ env.calc_distance_square display x y
                (handle_position gcc mode j).x (handle_position gcc mode j).y
              ≤ ((handle_size * handle_size : Int) : ℚ))) ∧
    (gimp_cage_tool_is_on_handle env (some gcc) display mode x y handle_size = -1 ↔
      ∀ j, j < gcc.n_cage_vertices →
        ¬ env.calc_distance_square display x y
            (handle_position gcc mode j).x (handle_position gcc mode j).y
          ≤ ((handle_size * handle_size : Int) : ℚ)) ∧
    (gimp_cage_tool_is_on_handle env (some gcc) display mode x y handle_size = -1 ∨
      ∃ i : Nat, i < gcc.n_cage_vertices ∧
        gimp_cage_tool_is_on_handle env (some gcc) display mode x y handle_size = (i : Int)) ∧
    (∀ i : Nat,
      handle_position gcc GimpCageMode.CAGE_CHANGE i
        = { x := (gcc.cage_vertices i).x + (gcc.offset_x : ℚ),
            y := (gcc.cage_vertices i).y + (gcc.offset_y : ℚ) } ∧
      handle_position gcc GimpCageMode.DEFORM i
        = { x := (gcc.cage_vertices_d i).x + (gcc.offset_x : ℚ),
            y := (gcc.cage_vertices_d i).y + (gcc.offset_y : ℚ) }) ∧
    gimp_cage_tool_is_on_handle env (some { gcc with n_cage_vertices := 0 }) display mode x y
      handle_size = -1 ∧
    (gimp_cage_tool_is_on_handle spec_env (some two_close_handles) display
        GimpCageMode.CAGE_CHANGE 1 0 HANDLE_SIZE = 0 ∧
      euclidean_distance_square 1 0
          (handle_position two_close_handles GimpCageMode.CAGE_CHANGE 1).x
          (handle_position two_close_handles GimpCageMode.CAGE_CHANGE 1).y
        < euclidean_distance_square 1 0
          (handle_position two_close_handles GimpCageMode.CAGE_CHANGE 0).x
          (handle_position two_close_handles GimpCageMode.CAGE_CHANGE 0).y) := by
  have hr : ∀ j : Nat, handle_in_range env gcc display mode x y handle_size j = true ↔
      env.calc_distance_square display x y
          (handle_position gcc mode j).x (handle_position gcc mode j).y
        ≤ ((handle_size * handle_size : Int) : ℚ) := by
    intro j
    simp [handle_in_range, gint_mul_self_fits handle_size hlo hhi]
  have hf : ∀ j : Nat, handle_in_range env gcc display mode x y handle_size j = false ↔
      ¬ env.calc_distance_square display x y
          (handle_position gcc mode j).x (handle_position gcc mode j).y
        ≤ ((handle_size * handle_size : Int) : ℚ) := by
    intro j
    simp [handle_in_range, gint_mul_self_fits handle_size hlo hhi]
  have hcases := is_on_handle_cases env gcc display mode x y handle_size
  refine ⟨?_, ?_, ?_, ?_, ?_, ?_⟩
  · intro i
    constructor
    · intro hi
      rcases hcases with ⟨h1, _⟩ | ⟨k, h1, h2, h3, h4⟩
      · rw [h1] at hi
        omega
      · rw [h1] at hi
        have hki : k = i := by exact_mod_cast hi
        subst hki
        exact ⟨h2, (hr k).1 h3, fun j hj => (hf j).1 (h4 j hj)⟩
    · rintro ⟨hi1, hi2, hi3⟩
      rcases hcases with ⟨h1, h2⟩ | ⟨k, h1, h2, h3, h4⟩
      · exact absurd hi2 ((hf i).1 (h2 i hi1))
      · rw [h1]
        have hki : k = i := by
          rcases Nat.lt_trichotomy k i with h | h | h
          · exact absurd ((hr k).1 h3) (hi3 k h)
          · exact h
          · exact absurd hi2 ((hf i).1 (h4 i h))
        rw [hki]
  · constructor
    · intro hi
      rcases hcases with ⟨_, h2⟩ | ⟨k, h1, h2, h3, h4⟩
      · exact fun j hj => (hf j).1 (h2 j hj)
      · rw [h1] at hi
        omega
    · intro hall
      rcases hcases with ⟨h1, _⟩ | ⟨k, h1, h2, h3, h4⟩
      · exact h1
      · exact absurd ((hr k).1 h3) (hall k h2)
  · rcases hcases with ⟨h1, _⟩ | ⟨k, h1, h2, _, _⟩
    · exact Or.inl h1
    · exact Or.inr ⟨k, h2, h1⟩
  · intro i
    simp [handle_position]
  · simp [gimp_cage_tool_is_on_handle]
  · constructor
    · simp [gimp_cage_tool_is_on_handle, two_close_handles, is_on_handle_loop, handle_in_range,
        handle_position, spec_env, euclidean_distance_square, new_cage_config, HANDLE_SIZE,
        gint_mul]
    · simp [two_close_handles, handle_position, euclidean_distance_square, new_cage_config]

/-- C1, amended, at the cage with handles at (0,0) and (1,0), queried at (1,0)
with `HANDLE_SIZE`: both handles are in range and the hit test gives the first,
index 0. -/
theorem is_on_handle_first_match_witness :
    (-46340 ≤ HANDLE_SIZE ∧ HANDLE_SIZE ≤ 46340) ∧
    gimp_cage_tool_is_on_handle spec_env (some two_close_handles) 0 GimpCageMode.CAGE_CHANGE
      1 0 HANDLE_SIZE = 0 ∧
    (∀ i : Nat,
      gimp_cage_tool_is_on_handle spec_env (some two_close_handles) 0
          GimpCageMode.CAGE_CHANGE 1 0 HANDLE_SIZE = (i : Int) ↔
        (i < two_close_handles.n_cage_vertices ∧
          spec_env.calc_distance_square 0 1 0
              (handle_position two_close_handles GimpCageMode.CAGE_CHANGE i).x
              (handle_position two_close_handles GimpCageMode.CAGE_CHANGE i).y
            ≤ ((HANDLE_SIZE * HANDLE_SIZE : Int) : ℚ) ∧
          ∀ j, j < i →
            ¬ spec_env.calc_distance_square 0 1 0
                (handle_position two_close_handles GimpCageMode.CAGE_CHANGE j).x
                (handle_position two_close_handles GimpCageMode.CAGE_CHANGE j).y
              ≤ ((HANDLE_SIZE * HANDLE_SIZE : Int) : ℚ))) ∧
    (gimp_cage_tool_is_on_handle spec_env (some two_close_handles) 0
        GimpCageMode.CAGE_CHANGE 1 0 HANDLE_SIZE = -1 ↔
      ∀ j, j < two_close_handles.n_cage_vertices →
        ¬ spec_env.calc_distance_square 0 1 0
            (handle_position two_close_handles GimpCageMode.CAGE_CHANGE j).x
            (handle_position two_close_handles GimpCageMode.CAGE_CHANGE j).y
          ≤ ((HANDLE_SIZE * HANDLE_SIZE : Int) : ℚ)) ∧
    (gimp_cage_tool_is_on_handle spec_env (some two_close_handles) 0
        GimpCageMode.CAGE_CHANGE 1 0 HANDLE_SIZE = -1 ∨
      ∃ i : Nat, i < two_close_handles.n_cage_vertices ∧
        gimp_cage_tool_is_on_handle spec_env (some two_close_handles) 0
          GimpCageMode.CAGE_CHANGE 1 0 HANDLE_SIZE = (i : Int)) ∧
    (∀ i : Nat,
      handle_position two_close_handles GimpCageMode.CAGE_CHANGE i
        = { x := (two_close_handles.cage_vertices i).x + (two_close_handles.offset_x : ℚ),
            y := (two_close_handles.cage_vertices i).y + (two_close_handles.offset_y : ℚ) } ∧
      handle_position two_close_handles GimpCageMode.DEFORM i
        = { x := (two_close_handles.cage_vertices_d i).x + (two_close_handles.offset_x : ℚ),
            y := (two_close_handles.cage_vertices_d i).y
              + (two_close_handles.offset_y : ℚ) }) ∧
    gimp_cage_tool_is_on_handle spec_env (some { two_close_handles with n_cage_vertices := 0 })
      0 GimpCageMode.CAGE_CHANGE 1 0 HANDLE_SIZE = -1 ∧
    (gimp_cage_tool_is_on_handle spec_env (some two_close_handles) 0
        GimpCageMode.CAGE_CHANGE 1 0 HANDLE_SIZE = 0 ∧
      euclidean_distance_square 1 0
          (handle_position two_close_handles GimpCageMode.CAGE_CHANGE 1).x
          (handle_position two_close_handles GimpCageMode.CAGE_CHANGE 1).y
        < euclidean_distance_square 1 0
          (handle_position two_close_handles GimpCageMode.CAGE_CHANGE 0).x
          (handle_position two_close_handles GimpCageMode.CAGE_CHANGE 0).y) :=
  ⟨by decide, by decide!,
    is_on_handle_first_match spec_env two_close_handles 0 GimpCageMode.CAGE_CHANGE 1 0
      HANDLE_SIZE (by decide) (by decide)⟩

/-- On the tool's own display the first part of a button press leaves the
closing state alone. -/
theorem grab_or_add_frame (env : Env) (ct : GimpCageTool) (coords : GimpVector2)
    (display : GimpDisplay) (hd : ct.display = some display) :
    (button_press_grab_or_add env ct coords display).display = ct.display ∧
    (button_press_grab_or_add env ct coords display).cage_complete = ct.cage_complete ∧
    (button_press_grab_or_add env ct coords display).cage_mode = ct.cage_mode ∧
    (button_press_grab_or_add env ct coords display).coef = ct.coef ∧
    (button_press_grab_or_add env ct coords display).image_map = ct.image_map ∧
    (button_press_grab_or_add env ct coords display).node_preview = ct.node_preview ∧
    (button_press_grab_or_add env ct coords display).next_id = ct.next_id := by
  have h0 : ¬ (ct.display ≠ some display) := by simp [hd]
  simp only [button_press_grab_or_add, if_neg h0]
  split_ifs <;> simp [emit, g_source_remove, gimp_draw_tool_pause, gimp_draw_tool_resume]

/-- The calls of the first part of a button press on the tool's own display:
at most the removal of an idle source and the adding of a vertex. -/
theorem grab_or_add_calls (env : Env) (ct : GimpCageTool) (coords : GimpVector2)
    (display : GimpDisplay) (hd : ct.display = some display) :
    ∃ calls : List Effect,
      (button_press_grab_or_add env ct coords display).log = ct.log ++ calls ∧
      ∀ e, e ∈ calls →
        e = Effect.source_remove ct.idle_id ∨ e = Effect.add_cage_point coords.x coords.y := by
  have h0 : ¬ (ct.display ≠ some display) := by simp [hd]
  simp only [button_press_grab_or_add, if_neg h0]
  split_ifs <;>
    first
    | (refine ⟨[], ?_, ?_⟩ <;>
        simp [emit, g_source_remove, gimp_draw_tool_pause, gimp_draw_tool_resume] <;> done)
    | (refine ⟨[Effect.add_cage_point coords.x coords.y], ?_, ?_⟩ <;>
        simp [emit, g_source_remove, gimp_draw_tool_pause, gimp_draw_tool_resume] <;> done)
    | (refine ⟨[Effect.source_remove ct.idle_id], ?_, ?_⟩ <;>
        simp [emit, g_source_remove, gimp_draw_tool_pause, gimp_draw_tool_resume] <;> done)
    | (refine ⟨[Effect.source_remove ct.idle_id, Effect.add_cage_point coords.x coords.y],
          ?_, ?_⟩ <;>
        simp [emit, g_source_remove, gimp_draw_tool_pause, gimp_draw_tool_resume])


/-- C3: on the tool's own display, a button press that finds fewer than 3
vertices when it comes to the closing test does not close the cage:
`cage_complete` and the cage mode stay as they were (so `cage_complete` stays
FALSE and the mode is not switched to deform), and neither a coefficient buffer
nor a preview job nor a preview graph is made. -/
theorem button_press_degenerate_cage_not_closed (env : Env) (ct : GimpCageTool)
    (coords : GimpVector2) (display : GimpDisplay) (n : Nat)
    (hd : ct.display = some display)
    (hc : (button_press_grab_or_add env ct coords display).config.map
      (fun c => c.n_cage_vertices) = some n)
    (hn : n < 3) :
    ∃ ct2, gimp_cage_tool_button_press env ct coords display = some ct2 ∧
      ct2.cage_complete = ct.cage_complete ∧
      (ct.cage_complete = false → ct2.cage_complete = false) ∧
      ct2.cage_mode = ct.cage_mode ∧
      ct2.coef = ct.coef ∧
      ct2.image_map = ct.image_map ∧
      ct2.node_preview = ct.node_preview ∧
      ct2.next_id = ct.next_id ∧
      (∀ m, Effect.image_map_new m ∉ calls_during ct ct2) ∧
      Effect.progress_start ∉ calls_during ct ct2 ∧
      Effect.reverse_cage_if_needed ∉ calls_during ct ct2 := by
  obtain ⟨_, h2, h3, h4, h5, h6, h7⟩ := grab_or_add_frame env ct coords display hd
  obtain ⟨calls, hlog, hcalls⟩ := grab_or_add_calls env ct coords display hd
  refine ⟨button_press_grab_or_add env ct coords display, ?_, h2, ?_, h3, h4, h5, h6, h7,
    ?_, ?_, ?_⟩
  · unfold gimp_cage_tool_button_press
    cases hcfg : (button_press_grab_or_add env ct coords display).config with
    | none => simp [hcfg] at hc
    | some c =>
      simp only [hcfg, Option.map_some', Option.some.injEq] at hc
      have hc2 : ¬ c.n_cage_vertices > 2 := by omega
      simp [hcfg, hc2]
  · intro h
    rw [h2, h]
  · intro m hm
    simp only [calls_during, hlog, List.drop_left] at hm
    rcases hcalls _ hm with h | h <;> cases h
  · intro hm
    simp only [calls_during, hlog, List.drop_left] at hm
    rcases hcalls _ hm with h | h <;> cases h
  · intro hm
    simp only [calls_during, hlog, List.drop_left] at hm
    rcases hcalls _ hm with h | h <;> cases h

/-- C3 at a session with two vertices, (0,0) and (100,0): a press on the first
handle grabs it (`handle_moved` is 0), so the closing test comes to the vertex
count, finds 2, and the cage is not closed. -/
theorem button_press_degenerate_cage_not_closed_witness :
    two_vertex_session.display = some 0 ∧
    (button_press_grab_or_add spec_env two_vertex_session { x := 0, y := 0 } 0).config.map
      (fun c => c.n_cage_vertices) = some 2 ∧
    (button_press_grab_or_add spec_env two_vertex_session { x := 0, y := 0 } 0).handle_moved
      = 0 ∧
    two_vertex_session.cage_complete = false ∧
    two_vertex_session.coef = none ∧
    ∃ ct2, gimp_cage_tool_button_press spec_env two_vertex_session { x := 0, y := 0 } 0
        = some ct2 ∧
      ct2.cage_complete = two_vertex_session.cage_complete ∧
      (two_vertex_session.cage_complete = false → ct2.cage_complete = false) ∧
      ct2.cage_mode = two_vertex_session.cage_mode ∧
      ct2.coef = two_vertex_session.coef ∧
      ct2.image_map = two_vertex_session.image_map ∧
      ct2.node_preview = two_vertex_session.node_preview ∧
      ct2.next_id = two_vertex_session.next_id ∧
      (∀ m, Effect.image_map_new m ∉ calls_during two_vertex_session ct2) ∧
      Effect.progress_start ∉ calls_during two_vertex_session ct2 ∧
      Effect.reverse_cage_if_needed ∉ calls_during two_vertex_session ct2 :=
  ⟨by decide!, by decide!, by decide!, by decide!, by decide!,
    button_press_degenerate_cage_not_closed spec_env two_vertex_session { x := 0, y := 0 } 0 2
      (by decide!) (by decide!) (by decide)⟩

/-! ## Facts about halting -/

/-- What `gimp_cage_tool_halt` does, field by field. -/
theorem halt_eq (ct : GimpCageTool) :
    gimp_cage_tool_halt ct =
      { ct with
        display := none,
        control_active := false,
        draw_active := false,
        config := none,
        coef := none,
        image_map := none,
        node_preview := none,
        idle_id := if ct.image_map ≠ none then 0 else ct.idle_id,
        sources := if ct.image_map ≠ none ∧ ct.idle_id > 0 then
            ct.sources.filter (fun s => s ≠ ct.idle_id)
          else ct.sources,
        log := ct.log ++ halt_calls ct } := by
  unfold gimp_cage_tool_halt halt_calls
  cases h1 : ct.draw_active <;> cases h2 : ct.control_active <;> cases h3 : ct.config <;>
    cases h4 : ct.coef <;> cases h5 : ct.image_map <;> cases h6 : ct.node_preview <;>
    simp [emit, g_source_remove, h1, h2, h3, h4, h5, h6] <;> split_ifs <;> simp_all


/-- The calls made during a halt are those of `halt_calls`. -/
theorem calls_during_halt (ct : GimpCageTool) :
    calls_during ct (gimp_cage_tool_halt ct) = halt_calls ct := by
  rw [halt_eq]
  simp [calls_during]

/-- C6: after `gimp_cage_tool_halt`, from any state, the coefficient buffer, the
preview job, the preview graph and the config are absent and the display of the
tool is unset; a preview job that was held has been aborted, and no preview job
is committed. The Escape key and the HALT action do the same halt. -/
theorem halt_releases_session (env : Env) (ct : GimpCageTool) (display : GimpDisplay) :
    (gimp_cage_tool_halt ct).coef = none ∧
    (gimp_cage_tool_halt ct).image_map = none ∧
    (gimp_cage_tool_halt ct).node_preview = none ∧
    (gimp_cage_tool_halt ct).config = none ∧
    (gimp_cage_tool_halt ct).display = none ∧
    (∀ m, ct.image_map = some m →
      Effect.image_map_abort (some m) ∈ calls_during ct (gimp_cage_tool_halt ct)) ∧
    (∀ m, Effect.image_map_commit m ∉ calls_during ct (gimp_cage_tool_halt ct)) ∧
    gimp_cage_tool_key_press env ct Key.GDK_Escape display = (true, gimp_cage_tool_halt ct) ∧
    gimp_cage_tool_control ct GimpToolAction.HALT
      = emit (gimp_cage_tool_halt ct) (Effect.parent_control GimpToolAction.HALT) := by
  refine ⟨by simp [halt_eq], by simp [halt_eq], by simp [halt_eq], by simp [halt_eq],
    by simp [halt_eq], ?_, ?_, rfl, rfl⟩
  · intro m hm
    rw [calls_during_halt]
    simp [halt_calls, hm]
  · intro m
    rw [calls_during_halt]
    unfold halt_calls
    cases ct.config <;> cases ct.coef <;> cases ct.image_map <;> cases ct.node_preview <;>
      simp

/-- C7 fails on the code. A halt removes the preview poll only inside the branch
for a held preview job: without a preview job it leaves `idle_id` and the idle
source as they are. Such a state is reached on an image without active layer:
close a cage, press Return (the preview job is dropped, nothing is committed and
nothing halts), drag a handle (the release registers poll 5); the Escape key then
halts and poll 5 stays registered. -/
theorem halt_keeps_poll_without_preview_job :
    (∀ ct : GimpCageTool, ct.image_map = none →
      (gimp_cage_tool_halt ct).idle_id = ct.idle_id ∧
      (gimp_cage_tool_halt ct).sources = ct.sources) ∧
    (∀ ct : GimpCageTool, ct.image_map ≠ none →
      (gimp_cage_tool_halt ct).idle_id = 0 ∧
      (0 < ct.idle_id → ct.idle_id ∉ (gimp_cage_tool_halt ct).sources)) ∧
    (run channel_env (gimp_cage_tool_init GimpCageMode.CAGE_CHANGE)
        (closing_clicks 0 ++
          [Event.key_press Key.GDK_Return 0,
            Event.button_press { x := 100, y := 0 } 0, Event.button_release])).map snapshot
      = some { display := some 0, cage_mode := GimpCageMode.DEFORM, n_cage_vertices := some 3,
               handle_moved := -1, cage_complete := true,
               coef := some { id := 1, components := 6 }, image_map := none,
               node_preview := some 2, idle_id := 5, sources := [5] } ∧
    (run channel_env (gimp_cage_tool_init GimpCageMode.CAGE_CHANGE)
        (closing_clicks 0 ++
          [Event.key_press Key.GDK_Return 0,
            Event.button_press { x := 100, y := 0 } 0, Event.button_release,
            Event.key_press Key.GDK_Escape 0])).map snapshot
      = some { display := none, cage_mode := GimpCageMode.DEFORM, n_cage_vertices := none,
               handle_moved := -1, cage_complete := true, coef := none, image_map := none,
               node_preview := none, idle_id := 5, sources := [5] } := by
  refine ⟨?_, ?_, by decide!, by decide!⟩
  · intro ct h
    simp [halt_eq, h]
  · intro ct h
    refine ⟨by simp [halt_eq, h], ?_⟩
    intro hpos
    simp [halt_eq, h, hpos, List.mem_filter]

/-- C8 fails on the code. A halt leaves `cage_complete` and `handle_moved` as
they are. After a cage is closed and the Escape key halts the tool,
`cage_complete` is still TRUE and handle 0 still grabbed, and a Return key press
then calls `gimp_image_map_abort` and `g_object_unref` on the `NULL` preview job
and enters `gimp_cage_tool_process` without a coefficient buffer. -/
theorem halt_keeps_cage_complete :
    (∀ ct : GimpCageTool,
      (gimp_cage_tool_halt ct).cage_complete = ct.cage_complete ∧
      (gimp_cage_tool_halt ct).handle_moved = ct.handle_moved) ∧
    (run spec_env (gimp_cage_tool_init GimpCageMode.CAGE_CHANGE)
        (triangle_clicks 0 ++
          [Event.button_press { x := 0, y := 0 } 0, Event.key_press Key.GDK_Escape 0])).map
        snapshot
      = some { display := none, cage_mode := GimpCageMode.DEFORM, n_cage_vertices := none,
               handle_moved := 0, cage_complete := true, coef := none, image_map := none,
               node_preview := none, idle_id := 0, sources := [] } ∧
    (run spec_env (gimp_cage_tool_init GimpCageMode.CAGE_CHANGE)
        (triangle_clicks 0 ++
          [Event.button_press { x := 0, y := 0 } 0, Event.key_press Key.GDK_Escape 0])).map
        (fun ct => calls_during ct (gimp_cage_tool_key_press spec_env ct Key.GDK_Return 0).2)
      = some [Effect.image_map_abort none, Effect.image_map_unref none,
              Effect.process_without_coef] := by
  refine ⟨?_, by decide!, by decide!⟩
  intro ct
  simp [halt_eq]

/-! ## Facts about starting -/

/-- What `gimp_cage_tool_start` leaves as it is: the coefficient buffer, the
pointer to the preview job, the preview graph and the preview poll. -/
theorem start_frame (env : Env) (ct : GimpCageTool) (display : GimpDisplay) :
    (gimp_cage_tool_start env ct display).coef = ct.coef ∧
    (gimp_cage_tool_start env ct display).image_map = ct.image_map ∧
    (gimp_cage_tool_start env ct display).node_preview = ct.node_preview ∧
    (gimp_cage_tool_start env ct display).idle_id = ct.idle_id ∧
    (gimp_cage_tool_start env ct display).sources = ct.sources ∧
    (gimp_cage_tool_start env ct display).cage_mode = ct.cage_mode := by
  unfold gimp_cage_tool_start
  cases ct.config <;> cases ct.image_map <;> simp [emit]

/-- What `gimp_cage_tool_start` sets. -/
theorem start_sets (env : Env) (ct : GimpCageTool) (display : GimpDisplay) :
    (gimp_cage_tool_start env ct display).display = some display ∧
    (gimp_cage_tool_start env ct display).cage_complete = false ∧
    (gimp_cage_tool_start env ct display).handle_moved = -1 ∧
    (gimp_cage_tool_start env ct display).config
      = some { new_cage_config with
          offset_x := (env.item_offset display).1,
          offset_y := (env.item_offset display).2 } := by
  unfold gimp_cage_tool_start
  cases ct.config <;> cases ct.image_map <;> simp [emit]

/-- C9 fails on the code. `gimp_cage_tool_start` aborts and unrefs the preview
job and leaves the pointer to it, and it leaves the coefficient buffer. After a
cage is closed on display 0, three clicks on display 1 and a click on the first
handle of the new cage do not close it: the old coefficient buffer 1 and the
released preview job 3 are still held, and the release of the button applies the
released job. -/
theorem start_keeps_coef_and_preview_job :
    (∀ (env : Env) (ct : GimpCageTool) (display : GimpDisplay),
      (gimp_cage_tool_start env ct display).coef = ct.coef ∧
      (gimp_cage_tool_start env ct display).image_map = ct.image_map ∧
      (∀ m, ct.image_map = some m →
        Effect.image_map_unref (some m)
          ∈ calls_during ct (gimp_cage_tool_start env ct display))) ∧
    (run spec_env (gimp_cage_tool_init GimpCageMode.CAGE_CHANGE) (closing_clicks 0)).map
        snapshot
      = some { display := some 0, cage_mode := GimpCageMode.DEFORM, n_cage_vertices := some 3,
               handle_moved := -1, cage_complete := true,
               coef := some { id := 1, components := 6 }, image_map := some 3,
               node_preview := some 2, idle_id := 4, sources := [4] } ∧
    (run spec_env (gimp_cage_tool_init GimpCageMode.CAGE_CHANGE)
        (closing_clicks 0 ++ triangle_clicks 1
          ++ [Event.button_press { x := 0, y := 0 } 1])).map snapshot
      = some { display := some 1, cage_mode := GimpCageMode.DEFORM, n_cage_vertices := some 3,
               handle_moved := 0, cage_complete := false,
               coef := some { id := 1, components := 6 }, image_map := some 3,
               node_preview := some 2, idle_id := 4, sources := [4] } ∧
    (run spec_env (gimp_cage_tool_init GimpCageMode.CAGE_CHANGE)
        (closing_clicks 0 ++ closing_clicks 1)).map (fun ct => ct.log.drop 12)
      = some [Effect.tool_control_activate, Effect.config_unref,
              Effect.image_map_abort (some 3), Effect.image_map_unref (some 3),
              Effect.draw_tool_start 1, Effect.add_cage_point 0 0,
              Effect.add_cage_point 100 0, Effect.add_cage_point 0 100,
              Effect.image_map_apply (some 3), Effect.idle_add 5] := by
  refine ⟨?_, by decide!, by decide!, by decide!⟩
  intro env ct display
  refine ⟨(start_frame env ct display).1, (start_frame env ct display).2.1, ?_⟩
  intro m hm
  unfold gimp_cage_tool_start calls_during
  cases ct.config <;> simp [emit, hm]

/-! ## Reachable states are consistent -/

/-- An option that is some value is that value. -/
theorem eq_some_getD {α : Type} (o : Option α) (d : α) (h : o.isSome = true) :
    o = some (o.getD d) := by
  cases o with
  | none => simp at h
  | some a => rfl

/-- Events from a reachable state lead to reachable states. -/
theorem reachable_run (env : Env) (evs : List Event) :
    ∀ ct ct2 : GimpCageTool, Reachable env ct → run env ct evs = some ct2 →
      Reachable env ct2 := by
  induction evs with
  | nil =>
    intro ct ct2 h hrun
    simp only [run, Option.some.injEq] at hrun
    rw [← hrun]
    exact h
  | cons e es ih =>
    intro ct ct2 h hrun
    simp only [run] at hrun
    cases hstep : step env ct e with
    | none => simp [hstep] at hrun
    | some ct1 =>
      rw [hstep] at hrun
      exact ih ct1 ct2 (Reachable.step ct ct1 e h hstep) hrun

/-- On the tool's own display the first part of a button press leaves the config
or adds a vertex, the latter only to a cage that is not complete. -/
theorem grab_or_add_config (env : Env) (ct : GimpCageTool) (coords : GimpVector2)
    (display : GimpDisplay) (hd : ct.display = some display) :
    (button_press_grab_or_add env ct coords display).config = ct.config ∨
    (ct.cage_complete = false ∧
      (button_press_grab_or_add env ct coords display).config
        = ct.config.map (fun c => env.add_cage_point c coords.x coords.y)) := by
  have h0 : ¬ (ct.display ≠ some display) := by simp [hd]
  simp only [button_press_grab_or_add, if_neg h0]
  split_ifs <;>
    simp_all [emit, g_source_remove, gimp_draw_tool_pause, gimp_draw_tool_resume]

/-- On the tool's own display the first part of a button press on a complete
cage leaves the config and calls nothing but the removal of the preview poll. -/
theorem grab_or_add_complete (env : Env) (ct : GimpCageTool) (coords : GimpVector2)
    (display : GimpDisplay) (hd : ct.display = some display)
    (hc : ct.cage_complete = true) :
    (button_press_grab_or_add env ct coords display).config = ct.config ∧
    ∃ calls : List Effect,
      (button_press_grab_or_add env ct coords display).log = ct.log ++ calls ∧
      ∀ e, e ∈ calls → e = Effect.source_remove ct.idle_id := by
  have h0 : ¬ (ct.display ≠ some display) := by simp [hd]
  simp only [button_press_grab_or_add, if_neg h0]
  split_ifs <;>
    first
    | (refine ⟨?_, [], ?_, ?_⟩ <;>
        simp_all [emit, g_source_remove, gimp_draw_tool_pause, gimp_draw_tool_resume] <;> done)
    | (refine ⟨?_, [Effect.source_remove ct.idle_id], ?_, ?_⟩ <;>
        simp_all [emit, g_source_remove, gimp_draw_tool_pause, gimp_draw_tool_resume])

/-- On another display a button press starts a new cage and goes on as on the
tool's own display. -/
theorem grab_or_add_start (env : Env) (ct : GimpCageTool) (coords : GimpVector2)
    (display : GimpDisplay) (hd : ct.display ≠ some display) :
    button_press_grab_or_add env ct coords display
      = button_press_grab_or_add env (gimp_cage_tool_start env ct display) coords display := by
  have h1 : ¬ ((gimp_cage_tool_start env ct display).display ≠ some display) := by
    simp [(start_sets env ct display).1]
  simp only [button_press_grab_or_add, if_pos hd, if_neg h1]

theorem consistent_init (mode : GimpCageMode) : Consistent (gimp_cage_tool_init mode) := by
  simp [Consistent, gimp_cage_tool_init]

theorem consistent_halt (ct : GimpCageTool) : Consistent (gimp_cage_tool_halt ct) := by
  simp [Consistent, halt_eq]

theorem consistent_start (env : Env) (ct : GimpCageTool) (display : GimpDisplay) :
    Consistent (gimp_cage_tool_start env ct display) := by
  obtain ⟨_, h2, _, h4⟩ := start_sets env ct display
  simp [Consistent, h2, h4]

theorem consistent_grab_or_add_same (env : Env) (ct : GimpCageTool) (coords : GimpVector2)
    (display : GimpDisplay) (hd : ct.display = some display) (h : Consistent ct) :
    Consistent (button_press_grab_or_add env ct coords display) := by
  obtain ⟨h1, h2, _, h4, _⟩ := grab_or_add_frame env ct coords display hd
  have hcfg : ct.config ≠ none := h.1 (by simp [hd])
  have hcfg2 : (button_press_grab_or_add env ct coords display).config ≠ none := by
    rcases grab_or_add_config env ct coords display hd with hh | ⟨_, hh⟩
    · rw [hh]; exact hcfg
    · rw [hh]
      cases hc : ct.config with
      | none => exact absurd hc hcfg
      | some c => simp
  refine ⟨fun _ => hcfg2, ?_⟩
  intro _ hcc
  rw [h4]
  rw [h2] at hcc
  exact h.2 (by simp [hd]) hcc

theorem consistent_grab_or_add (env : Env) (ct : GimpCageTool) (coords : GimpVector2)
    (display : GimpDisplay) (h : Consistent ct) :
    Consistent (button_press_grab_or_add env ct coords display) := by
  by_cases hd : ct.display = some display
  · exact consistent_grab_or_add_same env ct coords display hd h
  · rw [grab_or_add_start env ct coords display hd]
    exact consistent_grab_or_add_same env _ coords display (start_sets env ct display).1
      (consistent_start env ct display)

/-- What the closing branch of a button press sets and leaves. -/
theorem button_press_close_some (env : Env) (ct ct2 : GimpCageTool) (display : GimpDisplay)
    (h : button_press_close env ct display = some ct2) :
    ct2.display = ct.display ∧
    ct2.cage_complete = true ∧
    ct2.cage_mode = GimpCageMode.DEFORM ∧
    ct2.coef ≠ none ∧
    ct2.image_map ≠ none ∧
    ct2.config = ct.config.map env.reverse_cage_if_needed ∧
    ct2.idle_id = ct.idle_id ∧
    ct2.sources = ct.sources ∧
    ct2.handle_moved = ct.handle_moved := by
  unfold button_press_close gimp_cage_tool_compute_coef gimp_cage_tool_prepare_preview
    gimp_cage_tool_switch_to_deform at h
  cases hcfg : ct.config with
  | none => simp [hcfg, emit] at h
  | some c =>
    cases hcoef : ct.coef <;> cases hnode : ct.node_preview <;>
      simp [hcfg, hcoef, hnode, emit] at h <;> subst h <;> simp [hcfg]

theorem consistent_button_press (env : Env) (ct ct2 : GimpCageTool) (coords : GimpVector2)
    (display : GimpDisplay) (h : Consistent ct)
    (hp : gimp_cage_tool_button_press env ct coords display = some ct2) :
    Consistent ct2 := by
  have hpre := consistent_grab_or_add env ct coords display h
  simp only [gimp_cage_tool_button_press] at hp
  split_ifs at hp with h0
  · cases hcfg : (button_press_grab_or_add env ct coords display).config with
    | none => simp [hcfg] at hp
    | some c =>
      simp only [hcfg] at hp
      split_ifs at hp with h1
      · obtain ⟨_, c2, _, c4, _, c6, _⟩ := button_press_close_some env _ ct2 display hp
        refine ⟨fun _ => ?_, fun _ _ => c4⟩
        rw [c6, hcfg]
        simp
      · simp only [Option.some.injEq] at hp
        rw [← hp]
        exact hpre
  · simp only [Option.some.injEq] at hp
    rw [← hp]
    exact hpre

theorem consistent_button_release (ct : GimpCageTool) (h : Consistent ct) :
    Consistent (gimp_cage_tool_button_release ct) := by
  unfold Consistent at h ⊢
  unfold gimp_cage_tool_button_release
  split_ifs <;> simpa [emit, gimp_draw_tool_pause, gimp_draw_tool_resume] using h

theorem consistent_motion (env : Env) (ct : GimpCageTool) (coords : GimpVector2)
    (h : Consistent ct) : Consistent (gimp_cage_tool_motion env ct coords) := by
  unfold Consistent at h ⊢
  simp only [gimp_cage_tool_motion]
  split_ifs <;> simpa [emit, gimp_draw_tool_pause, gimp_draw_tool_resume] using h

theorem consistent_process (env : Env) (ct : GimpCageTool) (display : GimpDisplay)
    (h : Consistent ct) : Consistent (gimp_cage_tool_process env ct display) := by
  unfold gimp_cage_tool_process
  cases hcoef : ct.coef with
  | none =>
    unfold Consistent at h ⊢
    simpa [emit] using h
  | some b =>
    simp only []
    split_ifs <;> first | exact consistent_halt _ | exact h

theorem consistent_key_press (env : Env) (ct : GimpCageTool) (kevent : Key)
    (display : GimpDisplay) (h : Consistent ct) :
    Consistent (gimp_cage_tool_key_press env ct kevent display).2 := by
  have hcommit : Consistent
      (if ct.cage_complete then
        (true, gimp_cage_tool_process env
          (if ({ emit (emit ct (Effect.image_map_abort ct.image_map))
                  (Effect.image_map_unref ct.image_map) with image_map := none }).idle_id ≠ 0
            then
              { g_source_remove
                  ({ emit (emit ct (Effect.image_map_abort ct.image_map))
                      (Effect.image_map_unref ct.image_map) with image_map := none })
                  ({ emit (emit ct (Effect.image_map_abort ct.image_map))
                      (Effect.image_map_unref ct.image_map) with image_map := none }).idle_id
                with idle_id := 0 }
            else
              { emit (emit ct (Effect.image_map_abort ct.image_map))
                  (Effect.image_map_unref ct.image_map) with image_map := none })
          display)
      else (true, ct)).2 := by
    split_ifs
    · apply consistent_process
      unfold Consistent at h ⊢
      simpa [emit, g_source_remove] using h
    · apply consistent_process
      unfold Consistent at h ⊢
      simpa [emit, g_source_remove] using h
    · exact h
  cases kevent
  · unfold Consistent at h ⊢
    simp only [gimp_cage_tool_key_press, gimp_cage_tool_remove_last_handle]
    cases hc : ct.config <;>
      simp_all [emit, gimp_draw_tool_pause, gimp_draw_tool_resume]
  · exact hcommit
  · exact hcommit
  · exact hcommit
  · exact consistent_halt ct
  · exact h

theorem consistent_control (ct : GimpCageTool) (action : GimpToolAction)
    (h : Consistent ct) : Consistent (gimp_cage_tool_control ct action) := by
  cases action
  · unfold Consistent at h ⊢
    simpa [gimp_cage_tool_control, emit] using h
  · unfold Consistent at h ⊢
    simpa [gimp_cage_tool_control, emit] using h
  · have := consistent_halt ct
    unfold Consistent at this ⊢
    simpa [gimp_cage_tool_control, emit] using this

theorem consistent_oper_update (env : Env) (ct : GimpCageTool) (coords : GimpVector2)
    (display : GimpDisplay) (h : Consistent ct) :
    Consistent (gimp_cage_tool_oper_update env ct coords display) := by
  unfold Consistent at h ⊢
  simp only [gimp_cage_tool_oper_update]
  split_ifs <;> simpa [gimp_draw_tool_pause, gimp_draw_tool_resume] using h

theorem consistent_dispatch_idle (ct ct2 : GimpCageTool) (source : Nat) (busy : Bool)
    (h : Consistent ct) (hd : dispatch_idle ct source busy = some ct2) : Consistent ct2 := by
  unfold Consistent at h ⊢
  unfold dispatch_idle gimp_cage_tool_update_preview at hd
  cases him : ct.image_map <;> cases busy <;>
    simp [him, emit] at hd <;> obtain ⟨_, hd⟩ := hd <;> subst hd <;> simpa using h

/-- Every event keeps a state consistent. -/
theorem consistent_step (env : Env) (ct ct2 : GimpCageTool) (e : Event)
    (h : Consistent ct) (hs : step env ct e = some ct2) : Consistent ct2 := by
  cases e with
  | button_press coords display => exact consistent_button_press env ct ct2 coords display h hs
  | button_release =>
    simp only [step, Option.some.injEq] at hs
    rw [← hs]; exact consistent_button_release ct h
  | motion coords =>
    simp only [step, Option.some.injEq] at hs
    rw [← hs]; exact consistent_motion env ct coords h
  | key_press kevent display =>
    simp only [step, Option.some.injEq] at hs
    rw [← hs]; exact consistent_key_press env ct kevent display h
  | control action =>
    simp only [step, Option.some.injEq] at hs
    rw [← hs]; exact consistent_control ct action h
  | oper_update coords display =>
    simp only [step, Option.some.injEq] at hs
    rw [← hs]; exact consistent_oper_update env ct coords display h
  | idle source busy => exact consistent_dispatch_idle ct ct2 source busy h hs
  | set_cage_mode mode =>
    simp only [step, Option.some.injEq] at hs
    rw [← hs]; exact h

/-- Reachable states are consistent. -/
theorem reachable_consistent (env : Env) (ct : GimpCageTool) (h : Reachable env ct) :
    Consistent ct := by
  induction h with
  | init mode => exact consistent_init mode
  | step ct ct2 e _ hs ih => exact consistent_step env ct ct2 e ih hs

/-! ## Button presses on a closed cage -/

/-- The closed triangle of `closed_session` is what `closing_clicks` lead to. -/
theorem closed_session_run :
    run spec_env (gimp_cage_tool_init GimpCageMode.CAGE_CHANGE) (closing_clicks 0)
      = some closed_session :=
  eq_some_getD _ _ (by decide!)

/-- The calls of the closing branch of a button press: none adds a vertex. -/
theorem button_press_close_calls (env : Env) (ct ct2 : GimpCageTool) (display : GimpDisplay)
    (h : button_press_close env ct display = some ct2) :
    ∃ calls : List Effect, ct2.log = ct.log ++ calls ∧
      ∀ x y, Effect.add_cage_point x y ∉ calls := by
  unfold button_press_close gimp_cage_tool_compute_coef gimp_cage_tool_prepare_preview
    gimp_cage_tool_switch_to_deform at h
  cases hcfg : ct.config with
  | none => simp [hcfg, emit] at h
  | some c =>
    cases hcoef : ct.coef <;> cases hnode : ct.node_preview <;>
      simp [hcfg, hcoef, hnode, emit] at h <;> subst h <;>
      exact ⟨_, by simp only [List.append_assoc]; rfl, by simp⟩

/-- C4: a button press on the tool's own display, made while the cage is
complete, adds no vertex, wherever the click lands. In every state the press
does not call `gimp_cage_config_add_cage_point` and its adding step leaves the
config as it is; in every state the tool can reach the press returns with the
config (vertex count and both vertex arrays) as before. -/
theorem button_press_on_closed_cage_adds_no_vertex (env : Env) (ct : GimpCageTool)
    (coords : GimpVector2) (display : GimpDisplay)
    (hd : ct.display = some display) (hc : ct.cage_complete = true) :
    (button_press_grab_or_add env ct coords display).config = ct.config ∧
    (∀ ct2, gimp_cage_tool_button_press env ct coords display = some ct2 →
      ∀ x y, Effect.add_cage_point x y ∉ calls_during ct ct2) ∧
    (Reachable env ct →
      ∃ ct2, gimp_cage_tool_button_press env ct coords display = some ct2 ∧
        ct2.config = ct.config ∧
        ct2.config.map (fun c => c.n_cage_vertices)
          = ct.config.map (fun c => c.n_cage_vertices) ∧
        ct2.cage_complete = true) := by
  obtain ⟨_, f2, _, f4, _⟩ := grab_or_add_frame env ct coords display hd
  obtain ⟨g1, calls, g2, g3⟩ := grab_or_add_complete env ct coords display hd hc
  have hpre : ∀ x y, Effect.add_cage_point x y ∉ calls := by
    intro x y hm
    cases g3 _ hm
  refine ⟨g1, ?_, ?_⟩
  · intro ct2 hp x y
    simp only [gimp_cage_tool_button_press] at hp
    split_ifs at hp with h0
    · cases hcfg : (button_press_grab_or_add env ct coords display).config with
      | none => simp [hcfg] at hp
      | some c =>
        simp only [hcfg] at hp
        split_ifs at hp with h1
        · obtain ⟨calls2, k1, k2⟩ := button_press_close_calls env _ ct2 display hp
          rw [g2, List.append_assoc] at k1
          simp only [calls_during, k1, List.drop_left, List.mem_append, not_or]
          exact ⟨hpre x y, k2 x y⟩
        · simp only [Option.some.injEq] at hp
          rw [← hp]
          simp only [calls_during, g2, List.drop_left]
          exact hpre x y
    · simp only [Option.some.injEq] at hp
      rw [← hp]
      simp only [calls_during, g2, List.drop_left]
      exact hpre x y
  · intro hr
    have hcons := reachable_consistent env ct hr
    have hcoef : ct.coef ≠ none := hcons.2 (by simp [hd]) hc
    refine ⟨button_press_grab_or_add env ct coords display, ?_, g1, by rw [g1], by
      rw [f2, hc]⟩
    simp only [gimp_cage_tool_button_press]
    split_ifs with h0
    · cases hcfg : (button_press_grab_or_add env ct coords display).config with
      | none =>
        rw [g1] at hcfg
        exact absurd hcfg (hcons.1 (by simp [hd]))
      | some c =>
        have : ¬ (c.n_cage_vertices > 2 ∧
            (button_press_grab_or_add env ct coords display).coef = none) := by
          rw [f4]
          exact fun h => hcoef h.2
        simp only [if_neg this]
    · rfl

/-- C4 at the closed triangle, a state the tool reaches: a click on its first
handle adds nothing. -/
theorem button_press_on_closed_cage_adds_no_vertex_witness :
    closed_session.display = some 0 ∧
    closed_session.cage_complete = true ∧
    Reachable spec_env closed_session ∧
    (button_press_grab_or_add spec_env closed_session { x := 0, y := 0 } 0).config
      = closed_session.config ∧
    (∀ ct2, gimp_cage_tool_button_press spec_env closed_session { x := 0, y := 0 } 0
        = some ct2 →
      ∀ x y, Effect.add_cage_point x y ∉ calls_during closed_session ct2) ∧
    ∃ ct2, gimp_cage_tool_button_press spec_env closed_session { x := 0, y := 0 } 0
        = some ct2 ∧
      ct2.config = closed_session.config ∧
      ct2.config.map (fun c => c.n_cage_vertices)
        = closed_session.config.map (fun c => c.n_cage_vertices) ∧
      ct2.cage_complete = true :=
  have hreach : Reachable spec_env closed_session :=
    reachable_run spec_env _ _ _ (Reachable.init GimpCageMode.CAGE_CHANGE) closed_session_run
  have h := button_press_on_closed_cage_adds_no_vertex spec_env closed_session
    { x := 0, y := 0 } 0 (by decide!) (by decide!)
  ⟨by decide!, by decide!, hreach, h.1, h.2.1, h.2.2 hreach⟩

/-- C5 fails on the code. The BackSpace key removes the last vertex whether or
not the cage is complete: `gimp_cage_tool_key_press` hands the config to
`gimp_cage_config_remove_last_cage_point` without looking at `cage_complete`
(the adding of a vertex in `gimp_cage_tool_button_press` does look). After a
triangle is closed, BackSpace leaves a cage of 2 vertices that is still complete
and whose coefficient buffer still has 6 components. -/
theorem backspace_on_closed_cage_removes_vertex :
    (∀ (env : Env) (ct : GimpCageTool) (display : GimpDisplay),
      (gimp_cage_tool_key_press env ct Key.GDK_BackSpace display).2.config
        = ct.config.map env.remove_last_cage_point ∧
      (gimp_cage_tool_key_press env ct Key.GDK_BackSpace display).2.cage_complete
        = ct.cage_complete ∧
      (gimp_cage_tool_key_press env ct Key.GDK_BackSpace display).2.coef = ct.coef) ∧
    (∀ gcc : GimpCageConfig, 0 < gcc.n_cage_vertices →
      (gimp_cage_config_remove_last_cage_point gcc).n_cage_vertices
        = gcc.n_cage_vertices - 1) ∧
    (run spec_env (gimp_cage_tool_init GimpCageMode.CAGE_CHANGE) (closing_clicks 0)).map
        snapshot
      = some { display := some 0, cage_mode := GimpCageMode.DEFORM, n_cage_vertices := some 3,
               handle_moved := -1, cage_complete := true,
               coef := some { id := 1, components := 6 }, image_map := some 3,
               node_preview := some 2, idle_id := 4, sources := [4] } ∧
    (run spec_env (gimp_cage_tool_init GimpCageMode.CAGE_CHANGE)
        (closing_clicks 0 ++ [Event.key_press Key.GDK_BackSpace 0])).map snapshot
      = some { display := some 0, cage_mode := GimpCageMode.DEFORM, n_cage_vertices := some 2,
               handle_moved := -1, cage_complete := true,
               coef := some { id := 1, components := 6 }, image_map := some 3,
               node_preview := some 2, idle_id := 4, sources := [4] } := by
  refine ⟨?_, ?_, by decide!, by decide!⟩
  · intro env ct display
    simp [gimp_cage_tool_key_press, gimp_cage_tool_remove_last_handle, emit,
      gimp_draw_tool_pause, gimp_draw_tool_resume]
  · intro gcc h
    simp [gimp_cage_config_remove_last_cage_point, h]

/-- On the tool's own display, with no handle grabbed, the first part of a button
press grabs what the hit test finds, and removes the preview poll exactly when
the index found and `idle_id` are both above 0. -/
theorem grab_or_add_poll (env : Env) (ct : GimpCageTool) (coords : GimpVector2)
    (display : GimpDisplay) (hd : ct.display = some display) (hm : ct.handle_moved < 0) :
    (button_press_grab_or_add env ct coords display).handle_moved
      = gimp_cage_tool_is_on_handle env ct.config display ct.cage_mode coords.x coords.y
          HANDLE_SIZE ∧
    (button_press_grab_or_add env ct coords display).idle_id
      = (if gimp_cage_tool_is_on_handle env ct.config display ct.cage_mode coords.x coords.y
            HANDLE_SIZE > 0 ∧ ct.idle_id > 0 then 0 else ct.idle_id) ∧
    (button_press_grab_or_add env ct coords display).sources
      = (if gimp_cage_tool_is_on_handle env ct.config display ct.cage_mode coords.x coords.y
            HANDLE_SIZE > 0 ∧ ct.idle_id > 0 then ct.sources.filter (fun s => s ≠ ct.idle_id)
          else ct.sources) := by
  have h0 : ¬ (ct.display ≠ some display) := by simp [hd]
  simp only [button_press_grab_or_add, if_neg h0]
  split_ifs <;>
    simp_all [emit, g_source_remove, gimp_draw_tool_pause, gimp_draw_tool_resume]

/-- C10 fails on the code. The button press removes the preview poll only when
the index of the grabbed handle is above 0 (`ct->handle_moved > 0`): a press that
grabs handle 0 leaves `idle_id` and the idle source as they are. On the closed
triangle with poll 4 outstanding, a press on handle 0 leaves poll 4 and a press
on handle 1 removes it. -/
theorem button_press_on_first_handle_keeps_poll :
    (∀ (env : Env) (ct ct2 : GimpCageTool) (coords : GimpVector2) (display : GimpDisplay),
      ct.display = some display → ct.handle_moved < 0 →
      gimp_cage_tool_is_on_handle env ct.config display ct.cage_mode coords.x coords.y
        HANDLE_SIZE = 0 →
      gimp_cage_tool_button_press env ct coords display = some ct2 →
      ct2.handle_moved = 0 ∧ ct2.idle_id = ct.idle_id ∧ ct2.sources = ct.sources) ∧
    (run spec_env (gimp_cage_tool_init GimpCageMode.CAGE_CHANGE) (closing_clicks 0)).map
        snapshot
      = some { display := some 0, cage_mode := GimpCageMode.DEFORM, n_cage_vertices := some 3,
               handle_moved := -1, cage_complete := true,
               coef := some { id := 1, components := 6 }, image_map := some 3,
               node_preview := some 2, idle_id := 4, sources := [4] } ∧
    (run spec_env (gimp_cage_tool_init GimpCageMode.CAGE_CHANGE)
        (closing_clicks 0 ++ [Event.button_press { x := 0, y := 0 } 0])).map snapshot
      = some { display := some 0, cage_mode := GimpCageMode.DEFORM, n_cage_vertices := some 3,
               handle_moved := 0, cage_complete := true,
               coef := some { id := 1, components := 6 }, image_map := some 3,
               node_preview := some 2, idle_id := 4, sources := [4] } ∧
    (run spec_env (gimp_cage_tool_init GimpCageMode.CAGE_CHANGE)
        (closing_clicks 0 ++ [Event.button_press { x := 100, y := 0 } 0])).map snapshot
      = some { display := some 0, cage_mode := GimpCageMode.DEFORM, n_cage_vertices := some 3,
               handle_moved := 1, cage_complete := true,
               coef := some { id := 1, components := 6 }, image_map := some 3,
               node_preview := some 2, idle_id := 0, sources := [] } := by
  refine ⟨?_, by decide!, by decide!, by decide!⟩
  intro env ct ct2 coords display hd hm hit hp
  obtain ⟨p1, p2, p3⟩ := grab_or_add_poll env ct coords display hd hm
  rw [hit] at p1 p2 p3
  simp only [gt_iff_lt, lt_self_iff_false, false_and, if_false] at p2 p3
  simp only [gimp_cage_tool_button_press] at hp
  rw [if_pos p1] at hp
  cases hcfg : (button_press_grab_or_add env ct coords display).config with
  | none => simp [hcfg] at hp
  | some c =>
    simp only [hcfg] at hp
    split_ifs at hp with h1
    · obtain ⟨_, _, _, _, _, _, c7, c8, c9⟩ := button_press_close_some env _ ct2 display hp
      exact ⟨by rw [c9, p1], by rw [c7, p2], by rw [c8, p3]⟩
    · simp only [Option.some.injEq] at hp
      rw [← hp]
      exact ⟨p1, p2, p3⟩

/-! ## Fresh ids -/

/-- No event lowers the next unused id. -/
theorem step_next_id (env : Env) (ct ct2 : GimpCageTool) (e : Event)
    (hs : step env ct e = some ct2) : ct.next_id ≤ ct2.next_id := by
  have hstart : ∀ (c : GimpCageTool) (d : GimpDisplay),
      (gimp_cage_tool_start env c d).next_id = c.next_id := by
    intro c d
    unfold gimp_cage_tool_start
    cases c.config <;> cases c.image_map <;> simp [emit]
  cases e with
  | button_press coords display =>
    have hpre : (button_press_grab_or_add env ct coords display).next_id = ct.next_id := by
      by_cases hd : ct.display = some display
      · exact (grab_or_add_frame env ct coords display hd).2.2.2.2.2.2
      · rw [grab_or_add_start env ct coords display hd,
          (grab_or_add_frame env _ coords display (start_sets env ct display).1).2.2.2.2.2.2]
        exact hstart ct display
    have hclose : ∀ c c2 : GimpCageTool, button_press_close env c display = some c2 →
        c.next_id ≤ c2.next_id := by
      intro c c2 h
      unfold button_press_close gimp_cage_tool_compute_coef gimp_cage_tool_prepare_preview
        gimp_cage_tool_switch_to_deform at h
      cases hcfg : c.config with
      | none => simp [hcfg, emit] at h
      | some cfg =>
        cases hcoef : c.coef <;> cases hnode : c.node_preview <;>
          simp [hcfg, hcoef, hnode, emit] at h <;> subst h <;> simp <;> omega
    simp only [step, gimp_cage_tool_button_press] at hs
    split_ifs at hs with h0
    · cases hcfg : (button_press_grab_or_add env ct coords display).config with
      | none => simp [hcfg] at hs
      | some c =>
        simp only [hcfg] at hs
        split_ifs at hs with h1
        · have := hclose _ ct2 hs
          omega
        · simp only [Option.some.injEq] at hs
          rw [← hs, hpre]
    · simp only [Option.some.injEq] at hs
      rw [← hs, hpre]
  | button_release =>
    simp only [step, Option.some.injEq] at hs
    subst hs
    unfold gimp_cage_tool_button_release
    split_ifs <;> simp [emit, gimp_draw_tool_pause, gimp_draw_tool_resume]
  | motion coords =>
    simp only [step, Option.some.injEq] at hs
    subst hs
    simp only [gimp_cage_tool_motion]
    split_ifs <;> simp [emit, gimp_draw_tool_pause, gimp_draw_tool_resume]
  | key_press kevent display =>
    simp only [step, Option.some.injEq] at hs
    subst hs
    have hproc : ∀ c : GimpCageTool, (gimp_cage_tool_process env c display).next_id
        = c.next_id := by
      intro c
      unfold gimp_cage_tool_process
      cases c.coef with
      | none => simp [emit]
      | some b =>
        simp only []
        split_ifs <;> simp [halt_eq, emit, gimp_cage_tool_process_drawable]
    by_cases hk : is_commit_key kevent = true
    · by_cases hc : ct.cage_complete = true
      · by_cases hi : ct.idle_id ≠ 0 <;>
          cases kevent <;> simp [is_commit_key] at hk <;>
          simp [gimp_cage_tool_key_press, hc, hi, hproc, emit, g_source_remove]
      · cases kevent <;> simp [is_commit_key] at hk <;>
          simp [gimp_cage_tool_key_press, hc]
    · cases kevent <;> simp [is_commit_key] at hk <;>
        simp [gimp_cage_tool_key_press, gimp_cage_tool_remove_last_handle, emit,
          gimp_draw_tool_pause, gimp_draw_tool_resume, halt_eq]
  | control action =>
    simp only [step, Option.some.injEq] at hs
    subst hs
    cases action <;> simp [gimp_cage_tool_control, emit, halt_eq]
  | oper_update coords display =>
    simp only [step, Option.some.injEq] at hs
    subst hs
    simp only [gimp_cage_tool_oper_update]
    split_ifs <;> simp [gimp_draw_tool_pause, gimp_draw_tool_resume]
  | idle source busy =>
    simp only [step] at hs
    unfold dispatch_idle gimp_cage_tool_update_preview at hs
    cases him : ct.image_map <;> cases busy <;>
      simp [him, emit] at hs <;> obtain ⟨_, hs⟩ := hs <;> subst hs <;> simp
  | set_cage_mode mode =>
    simp only [step, Option.some.injEq] at hs
    subst hs
    simp

/-- In a reachable state the next unused id is above 0, as the ids that
`g_idle_add` returns are. -/
theorem reachable_next_id (env : Env) (ct : GimpCageTool) (h : Reachable env ct) :
    0 < ct.next_id := by
  induction h with
  | init mode => simp [gimp_cage_tool_init]
  | step ct ct2 e _ hs ih =>
    have := step_next_id env ct ct2 e hs
    omega

/-! ## Motion, button release and repeated halts -/

/-- C16: a motion event with no handle grabbed leaves the whole state, so the
cage config, as it is. With a handle grabbed it asks for exactly one vertex
move, of vertex `handle_moved`, in the cage mode of the tool options, to the
coordinates of the event; the config becomes what that move returns and no
other field of the session changes. The move of the spec writes the original
positions in cage-change mode and the displaced positions in deform mode. -/
theorem motion_moves_grabbed_handle (env : Env) (ct : GimpCageTool) (coords : GimpVector2) :
    (ct.handle_moved < 0 → gimp_cage_tool_motion env ct coords = ct) ∧
    (0 ≤ ct.handle_moved →
      calls_during ct (gimp_cage_tool_motion env ct coords)
        = [Effect.move_cage_point ct.cage_mode ct.handle_moved coords.x coords.y] ∧
      gimp_cage_tool_motion env ct coords
        = { ct with
            config := ct.config.map
              (fun c => env.move_cage_point c ct.cage_mode ct.handle_moved coords.x coords.y),
            log := ct.log
              ++ [Effect.move_cage_point ct.cage_mode ct.handle_moved coords.x coords.y] }) ∧
    (∀ (gcc : GimpCageConfig) (point : Int) (x y : ℚ),
      (gimp_cage_config_move_cage_point gcc GimpCageMode.CAGE_CHANGE point x y).cage_vertices_d
        = gcc.cage_vertices_d ∧
      (gimp_cage_config_move_cage_point gcc GimpCageMode.DEFORM point x y).cage_vertices
        = gcc.cage_vertices ∧
      ∀ mode, (gimp_cage_config_move_cage_point gcc mode point x y).n_cage_vertices
        = gcc.n_cage_vertices) := by
  refine ⟨?_, ?_, ?_⟩
  · intro h
    have h2 : ¬ ct.handle_moved ≥ 0 := by omega
    simp [gimp_cage_tool_motion, gimp_draw_tool_pause, gimp_draw_tool_resume, h2]
  · intro h
    have h2 : ct.handle_moved ≥ 0 := h
    simp [gimp_cage_tool_motion, gimp_draw_tool_pause, gimp_draw_tool_resume, h2, emit,
      calls_during]
  · intro gcc point x y
    refine ⟨?_, ?_, ?_⟩
    · simp only [gimp_cage_config_move_cage_point]
      split_ifs <;> simp
    · simp only [gimp_cage_config_move_cage_point]
      split_ifs <;> simp_all
    · intro mode
      simp only [gimp_cage_config_move_cage_point]
      split_ifs <;> simp

/-- What a button release does: afterwards no handle is grabbed. If a coefficient
buffer is held and a handle was grabbed, the release calls
`gimp_image_map_apply` on the pointer `ct->image_map`, set or not, and registers
a new idle source, whose id `idle_id` takes; nothing else changes; in a state
the tool can reach that id is above 0. In every other case only `handle_moved`
changes, and neither call is made. -/
theorem button_release_cases (env : Env) (ct : GimpCageTool) :
    (gimp_cage_tool_button_release ct).handle_moved = -1 ∧
    (Reachable env ct → (ct.coef ≠ none ∧ ct.handle_moved > -1) →
      0 < (gimp_cage_tool_button_release ct).idle_id) ∧
    ((ct.coef ≠ none ∧ ct.handle_moved > -1) →
      calls_during ct (gimp_cage_tool_button_release ct)
        = [Effect.image_map_apply ct.image_map, Effect.idle_add ct.next_id] ∧
      (gimp_cage_tool_button_release ct).idle_id = ct.next_id ∧
      ct.next_id ∈ (gimp_cage_tool_button_release ct).sources ∧
      gimp_cage_tool_button_release ct
        = { ct with
            handle_moved := -1,
            idle_id := ct.next_id,
            sources := ct.sources ++ [ct.next_id],
            next_id := ct.next_id + 1,
            log := ct.log ++ [Effect.image_map_apply ct.image_map, Effect.idle_add ct.next_id] }) ∧
    (¬ (ct.coef ≠ none ∧ ct.handle_moved > -1) →
      gimp_cage_tool_button_release ct = { ct with handle_moved := -1 } ∧
      calls_during ct (gimp_cage_tool_button_release ct) = []) ∧
    ((∃ m, Effect.image_map_apply m ∈ calls_during ct (gimp_cage_tool_button_release ct))
      ↔ (ct.coef ≠ none ∧ ct.handle_moved > -1)) ∧
    ((∃ id, Effect.idle_add id ∈ calls_during ct (gimp_cage_tool_button_release ct))
      ↔ (ct.coef ≠ none ∧ ct.handle_moved > -1)) := by
  by_cases h : ct.coef ≠ none ∧ ct.handle_moved > -1
  · have e : gimp_cage_tool_button_release ct
        = { ct with
            handle_moved := -1,
            idle_id := ct.next_id,
            sources := ct.sources ++ [ct.next_id],
            next_id := ct.next_id + 1,
            log := ct.log ++ [Effect.image_map_apply ct.image_map, Effect.idle_add ct.next_id] } := by
      simp [gimp_cage_tool_button_release, if_pos h, emit, gimp_draw_tool_pause,
        gimp_draw_tool_resume]
    have c : calls_during ct (gimp_cage_tool_button_release ct)
        = [Effect.image_map_apply ct.image_map, Effect.idle_add ct.next_id] := by
      rw [e]
      simp [calls_during]
    refine ⟨by rw [e], fun hr _ => by rw [e]; exact reachable_next_id env ct hr,
      fun _ => ⟨c, by rw [e], by rw [e]; simp, e⟩, fun hn => absurd h hn, ?_, ?_⟩
    · rw [c]
      exact ⟨fun _ => h, fun _ => ⟨ct.image_map, by simp⟩⟩
    · rw [c]
      exact ⟨fun _ => h, fun _ => ⟨ct.next_id, by simp⟩⟩
  · have e : gimp_cage_tool_button_release ct = { ct with handle_moved := -1 } := by
      simp [gimp_cage_tool_button_release, if_neg h]
    have c : calls_during ct (gimp_cage_tool_button_release ct) = [] := by
      rw [e]
      simp [calls_during]
    refine ⟨by rw [e], fun _ hp => absurd hp h, fun hp => absurd hp h, fun _ => ⟨e, c⟩,
      ?_, ?_⟩
    · rw [c]
      exact ⟨fun ⟨_, hm⟩ => by simp at hm, fun hp => absurd hp h⟩
    · rw [c]
      exact ⟨fun ⟨_, hm⟩ => by simp at hm, fun hp => absurd hp h⟩

/-- A halted tool has nothing for a halt to release. -/
theorem halt_calls_halt (ct : GimpCageTool) : halt_calls (gimp_cage_tool_halt ct) = [] := by
  rw [halt_eq]
  simp [halt_calls]

/-- C18: halting is idempotent. A second halt gives the state of the first and
makes no call at all, so it releases no config, coefficient buffer, preview job,
preview graph or idle source again; the halt of `gimp_cage_tool_finalize` after
an earlier halt only leads to the finalize of the parent class. -/
theorem halt_idempotent (ct : GimpCageTool) :
    gimp_cage_tool_halt (gimp_cage_tool_halt ct) = gimp_cage_tool_halt ct ∧
    calls_during (gimp_cage_tool_halt ct) (gimp_cage_tool_halt (gimp_cage_tool_halt ct)) = [] ∧
    gimp_cage_tool_finalize (gimp_cage_tool_halt ct)
      = emit (gimp_cage_tool_halt ct) Effect.parent_finalize ∧
    calls_during (gimp_cage_tool_halt ct) (gimp_cage_tool_finalize (gimp_cage_tool_halt ct))
      = [Effect.parent_finalize] := by
  have h1 : gimp_cage_tool_halt (gimp_cage_tool_halt ct) = gimp_cage_tool_halt ct := by
    rw [halt_eq (gimp_cage_tool_halt ct), halt_calls_halt]
    rw [halt_eq]
    simp
  refine ⟨h1, ?_, ?_, ?_⟩
  · rw [h1]
    simp [calls_during]
  · simp [gimp_cage_tool_finalize, h1]
  · simp [gimp_cage_tool_finalize, h1, calls_during, emit]

/-! ## Closing the cage -/

/-- With a config the closing branch of a button press returns, and the buffer
it computes has twice the vertex count of the config it leaves as components. -/
theorem button_press_close_coef (env : Env) (ct : GimpCageTool) (display : GimpDisplay)
    (c : GimpCageConfig) (hc : ct.config = some c) :
    ∃ ct2, button_press_close env ct display = some ct2 ∧
      ct2.config = some (env.reverse_cage_if_needed c) ∧
      ct2.coef.map (fun b => b.components)
        = some ((env.reverse_cage_if_needed c).n_cage_vertices * 2) ∧
      (∃ m, ct2.image_map = some m ∧ Effect.image_map_new m ∈ calls_during ct ct2) := by
  unfold button_press_close gimp_cage_tool_compute_coef gimp_cage_tool_prepare_preview
    gimp_cage_tool_switch_to_deform calls_during
  cases hcoef : ct.coef <;> cases hnode : ct.node_preview <;>
    simp [hc, hcoef, hnode, emit]

/-- C15: a button press that comes to the closing test with handle 0 grabbed,
more than 2 vertices and no coefficient buffer closes the cage: it returns with
`cage_complete` TRUE, the cage mode of the options set to deform, a coefficient
buffer of 2 x `n_cage_vertices` float components, and a new preview job. -/
theorem button_press_on_first_handle_closes_cage (env : Env) (ct : GimpCageTool)
    (coords : GimpVector2) (display : GimpDisplay) (n : Nat)
    (hd : ct.display = some display)
    (hh : (button_press_grab_or_add env ct coords display).handle_moved = 0)
    (hc : (button_press_grab_or_add env ct coords display).config.map
      (fun c => c.n_cage_vertices) = some n)
    (hn : n > 2)
    (hcoef : (button_press_grab_or_add env ct coords display).coef = none) :
    ∃ ct2, gimp_cage_tool_button_press env ct coords display = some ct2 ∧
      ct2.display = some display ∧
      ct2.cage_complete = true ∧
      ct2.cage_mode = GimpCageMode.DEFORM ∧
      (∃ b, ct2.coef = some b ∧
        ct2.config.map (fun c => c.n_cage_vertices * 2) = some b.components) ∧
      (∃ m, ct2.image_map = some m ∧ Effect.image_map_new m ∈ calls_during ct ct2) := by
  obtain ⟨f1, _⟩ := grab_or_add_frame env ct coords display hd
  obtain ⟨calls, hlog, _⟩ := grab_or_add_calls env ct coords display hd
  cases hcfg : (button_press_grab_or_add env ct coords display).config with
  | none => simp [hcfg] at hc
  | some c =>
    simp only [hcfg, Option.map_some', Option.some.injEq] at hc
    obtain ⟨ct2, k1, k2, k3, m, k4, k5⟩ :=
      button_press_close_coef env (button_press_grab_or_add env ct coords display) display c hcfg
    obtain ⟨s1, s2, s3, _⟩ := button_press_close_some env _ ct2 display k1
    have hcond : c.n_cage_vertices > 2 ∧
        (button_press_grab_or_add env ct coords display).coef = none := ⟨by omega, hcoef⟩
    refine ⟨ct2, ?_, by rw [s1, f1, hd], s2, s3, ?_, m, k4, ?_⟩
    · simp only [gimp_cage_tool_button_press, if_pos hh, hcfg, if_pos hcond]
      exact k1
    · cases hb : ct2.coef with
      | none => simp [hb] at k3
      | some b =>
        simp only [hb, Option.map_some', Option.some.injEq] at k3
        exact ⟨b, rfl, by simp [k2, k3]⟩
    · obtain ⟨calls2, q1, _⟩ := button_press_close_calls env _ ct2 display k1
      simp only [calls_during, q1, List.drop_left] at k5
      simp only [calls_during, q1, hlog, List.append_assoc, List.drop_left, List.mem_append]
      exact Or.inr k5

/-- The open triangle of `triangle_session` is what `triangle_clicks` lead to. -/
theorem triangle_session_run :
    run spec_env (gimp_cage_tool_init GimpCageMode.CAGE_CHANGE) (triangle_clicks 0)
      = some triangle_session :=
  eq_some_getD _ _ (by decide!)

/-- C15 at the open triangle: the click on its first handle closes it, and the
coefficient buffer has 6 components for the 3 vertices. -/
theorem button_press_on_first_handle_closes_cage_witness :
    triangle_session.display = some 0 ∧
    (button_press_grab_or_add spec_env triangle_session { x := 0, y := 0 } 0).handle_moved = 0 ∧
    (button_press_grab_or_add spec_env triangle_session { x := 0, y := 0 } 0).config.map
      (fun c => c.n_cage_vertices) = some 3 ∧
    (button_press_grab_or_add spec_env triangle_session { x := 0, y := 0 } 0).coef = none ∧
    ∃ ct2, gimp_cage_tool_button_press spec_env triangle_session { x := 0, y := 0 } 0
        = some ct2 ∧
      ct2.display = some 0 ∧
      ct2.cage_complete = true ∧
      ct2.cage_mode = GimpCageMode.DEFORM ∧
      (∃ b, ct2.coef = some b ∧
        ct2.config.map (fun c => c.n_cage_vertices * 2) = some b.components) ∧
      (∃ m, ct2.image_map = some m ∧
        Effect.image_map_new m ∈ calls_during triangle_session ct2) :=
  ⟨by decide!, by decide!, by decide!, by decide!,
    button_press_on_first_handle_closes_cage spec_env triangle_session { x := 0, y := 0 } 0 3
      (by decide!) (by decide!) (by decide!) (by decide) (by decide!)⟩

/-! ## The preview poll -/

/-- What the preview poll does, by the pointer `ct->image_map`: it returns TRUE
exactly when the pointer is set and the answer is "busy", and then changes no
field of the tool (the query is its only call); otherwise it returns FALSE with
`idle_id` 0. It flushes the display exactly when the pointer is set and the
answer is "not busy". With a `NULL` pointer it makes no call at all, and what it
asks `gimp_image_map_is_busy` about is always what the pointer holds. -/
theorem update_preview_cases (ct : GimpCageTool) (busy : Bool) :
    ((gimp_cage_tool_update_preview ct busy).1 = true
      ↔ (ct.image_map ≠ none ∧ busy = true)) ∧
    ((gimp_cage_tool_update_preview ct busy).1 = true →
      ∃ m, ct.image_map = some m ∧
        (gimp_cage_tool_update_preview ct busy).2 = emit ct (Effect.image_map_is_busy m)) ∧
    ((gimp_cage_tool_update_preview ct busy).1 = false →
      (gimp_cage_tool_update_preview ct busy).2.idle_id = 0) ∧
    (ct.image_map = none →
      (gimp_cage_tool_update_preview ct busy).2 = { ct with idle_id := 0 } ∧
      calls_during ct (gimp_cage_tool_update_preview ct busy).2 = []) ∧
    (∀ m, ct.image_map = some m → busy = false →
      (gimp_cage_tool_update_preview ct busy).2
        = { ct with
            idle_id := 0,
            log := ct.log ++ [Effect.image_map_is_busy m,
              Effect.projection_flush_now ct.display, Effect.display_flush_now ct.display] }) ∧
    ((∃ d, Effect.display_flush_now d
        ∈ calls_during ct (gimp_cage_tool_update_preview ct busy).2)
      ↔ (ct.image_map ≠ none ∧ busy = false)) ∧
    (∀ m, Effect.image_map_is_busy m
        ∈ calls_during ct (gimp_cage_tool_update_preview ct busy).2 →
      ct.image_map = some m) := by
  cases him : ct.image_map with
  | none =>
    simp [gimp_cage_tool_update_preview, him, calls_during]
  | some m =>
    cases busy <;>
      simp [gimp_cage_tool_update_preview, him, calls_during, emit]

/-! ## The commit key -/

/-- A button press that returns leaves the tool on the display of the press. -/
theorem button_press_display (env : Env) (ct ct2 : GimpCageTool) (coords : GimpVector2)
    (display : GimpDisplay)
    (hp : gimp_cage_tool_button_press env ct coords display = some ct2) :
    ct2.display = some display := by
  have hpre : (button_press_grab_or_add env ct coords display).display = some display := by
    by_cases hd : ct.display = some display
    · rw [(grab_or_add_frame env ct coords display hd).1, hd]
    · rw [grab_or_add_start env ct coords display hd,
        (grab_or_add_frame env _ coords display (start_sets env ct display).1).1]
      exact (start_sets env ct display).1
  simp only [gimp_cage_tool_button_press] at hp
  split_ifs at hp with h0
  · cases hcfg : (button_press_grab_or_add env ct coords display).config with
    | none => simp [hcfg] at hp
    | some c =>
      simp only [hcfg] at hp
      split_ifs at hp with h1
      · rw [(button_press_close_some env _ ct2 display hp).1]
        exact hpre
      · simp only [Option.some.injEq] at hp
        rw [← hp]
        exact hpre
  · simp only [Option.some.injEq] at hp
    rw [← hp]
    exact hpre

theorem off_released_halt (ct : GimpCageTool) : OffReleased (gimp_cage_tool_halt ct) := by
  simp [OffReleased, halt_eq]

theorem off_released_process (env : Env) (ct : GimpCageTool) (display : GimpDisplay)
    (h : OffReleased ct) : OffReleased (gimp_cage_tool_process env ct display) := by
  unfold gimp_cage_tool_process
  cases hcoef : ct.coef with
  | none =>
    unfold OffReleased at h ⊢
    simpa [emit] using h
  | some b =>
    simp only []
    split_ifs <;> first | exact off_released_halt _ | exact h

theorem off_released_key_press (env : Env) (ct : GimpCageTool) (kevent : Key)
    (display : GimpDisplay) (h : OffReleased ct) :
    OffReleased (gimp_cage_tool_key_press env ct kevent display).2 := by
  have hcommit : OffReleased
      (if ct.cage_complete then
        (true, gimp_cage_tool_process env
          (if ({ emit (emit ct (Effect.image_map_abort ct.image_map))
                  (Effect.image_map_unref ct.image_map) with image_map := none }).idle_id ≠ 0
            then
              { g_source_remove
                  ({ emit (emit ct (Effect.image_map_abort ct.image_map))
                      (Effect.image_map_unref ct.image_map) with image_map := none })
                  ({ emit (emit ct (Effect.image_map_abort ct.image_map))
                      (Effect.image_map_unref ct.image_map) with image_map := none }).idle_id
                with idle_id := 0 }
            else
              { emit (emit ct (Effect.image_map_abort ct.image_map))
                  (Effect.image_map_unref ct.image_map) with image_map := none })
          display)
      else (true, ct)).2 := by
    split_ifs
    · apply off_released_process
      unfold OffReleased at h ⊢
      simpa [emit, g_source_remove] using h
    · apply off_released_process
      unfold OffReleased at h ⊢
      simpa [emit, g_source_remove] using h
    · exact h
  cases kevent
  · unfold OffReleased at h ⊢
    simp only [gimp_cage_tool_key_press, gimp_cage_tool_remove_last_handle]
    cases hc : ct.config <;>
      simp_all [emit, gimp_draw_tool_pause, gimp_draw_tool_resume]
  · exact hcommit
  · exact hcommit
  · exact hcommit
  · exact off_released_halt ct
  · exact h

/-- Every event keeps the fact that a completed cage off display is released. -/
theorem off_released_step (env : Env) (ct ct2 : GimpCageTool) (e : Event)
    (h : OffReleased ct) (hs : step env ct e = some ct2) : OffReleased ct2 := by
  cases e with
  | button_press coords display =>
    intro hd
    rw [button_press_display env ct ct2 coords display hs] at hd
    exact absurd hd (by simp)
  | button_release =>
    simp only [step, Option.some.injEq] at hs
    rw [← hs]
    unfold OffReleased at h ⊢
    unfold gimp_cage_tool_button_release
    split_ifs <;> simpa [emit, gimp_draw_tool_pause, gimp_draw_tool_resume] using h
  | motion coords =>
    simp only [step, Option.some.injEq] at hs
    rw [← hs]
    unfold OffReleased at h ⊢
    simp only [gimp_cage_tool_motion]
    split_ifs <;> cases hc : ct.config <;>
      simp_all [emit, gimp_draw_tool_pause, gimp_draw_tool_resume]
  | key_press kevent display =>
    simp only [step, Option.some.injEq] at hs
    rw [← hs]
    exact off_released_key_press env ct kevent display h
  | control action =>
    simp only [step, Option.some.injEq] at hs
    rw [← hs]
    cases action
    · unfold OffReleased at h ⊢
      simpa [gimp_cage_tool_control, emit] using h
    · unfold OffReleased at h ⊢
      simpa [gimp_cage_tool_control, emit] using h
    · have := off_released_halt ct
      unfold OffReleased at this ⊢
      simpa [gimp_cage_tool_control, emit] using this
  | oper_update coords display =>
    simp only [step, Option.some.injEq] at hs
    rw [← hs]
    unfold OffReleased at h ⊢
    simp only [gimp_cage_tool_oper_update]
    split_ifs <;> simpa [gimp_draw_tool_pause, gimp_draw_tool_resume] using h
  | idle source busy =>
    unfold OffReleased at h ⊢
    simp only [step] at hs
    unfold dispatch_idle gimp_cage_tool_update_preview at hs
    cases him : ct.image_map <;> cases busy <;>
      simp [him, emit] at hs <;> obtain ⟨_, hs⟩ := hs <;> subst hs <;> simpa using h
  | set_cage_mode mode =>
    simp only [step, Option.some.injEq] at hs
    rw [← hs]
    exact h

/-- In a reachable state a completed cage off display is released. -/
theorem reachable_off_released (env : Env) (ct : GimpCageTool) (h : Reachable env ct) :
    OffReleased ct := by
  induction h with
  | init mode => simp [OffReleased, gimp_cage_tool_init]
  | step ct ct2 e _ hs ih => exact off_released_step env ct ct2 e ih hs

/-- What a commit key does to a completed cage: it drops the preview job and its
poll and goes on to `gimp_cage_tool_process`. -/
theorem commit_key_eq (env : Env) (ct : GimpCageTool) (kevent : Key) (display : GimpDisplay)
    (hk : kevent = Key.GDK_Return ∨ kevent = Key.GDK_KP_Enter ∨ kevent = Key.GDK_ISO_Enter)
    (hc : ct.cage_complete = true) :
    ∃ ct1 : GimpCageTool,
      gimp_cage_tool_key_press env ct kevent display
        = (true, gimp_cage_tool_process env ct1 display) ∧
      ct1.coef = ct.coef ∧ ct1.config = ct.config ∧ ct1.node_preview = ct.node_preview ∧
      ct1.display = ct.display ∧ ct1.image_map = none ∧ ct1.cage_complete = true := by
  by_cases hi : ct.idle_id ≠ 0
  · refine ⟨{ g_source_remove
        ({ emit (emit ct (Effect.image_map_abort ct.image_map))
            (Effect.image_map_unref ct.image_map) with image_map := none }) ct.idle_id
        with idle_id := 0 }, ?_, ?_⟩
    · rcases hk with h | h | h <;> subst h <;>
        simp [gimp_cage_tool_key_press, hc, emit, hi, g_source_remove]
    · simp [emit, g_source_remove, hc]
  · refine ⟨{ emit (emit ct (Effect.image_map_abort ct.image_map))
        (Effect.image_map_unref ct.image_map) with image_map := none }, ?_, ?_⟩
    · rcases hk with h | h | h <;> subst h <;>
        simp [gimp_cage_tool_key_press, hc, emit, hi]
    · simp [emit, hc]

/-- C11, as the claim states it, fails: on an image without active layer the
Return key on the closed triangle drops the preview job and does not halt; the
config, the coefficient buffer, the preview graph and the display stay. -/
theorem commit_key_without_active_layer_does_not_halt :
    (run channel_env (gimp_cage_tool_init GimpCageMode.CAGE_CHANGE) (closing_clicks 0)).map
        snapshot
      = some { display := some 0, cage_mode := GimpCageMode.DEFORM, n_cage_vertices := some 3,
               handle_moved := -1, cage_complete := true,
               coef := some { id := 1, components := 6 }, image_map := some 3,
               node_preview := some 2, idle_id := 4, sources := [4] } ∧
    (run channel_env (gimp_cage_tool_init GimpCageMode.CAGE_CHANGE)
        (closing_clicks 0 ++ [Event.key_press Key.GDK_Return 0])).map snapshot
      = some { display := some 0, cage_mode := GimpCageMode.DEFORM, n_cage_vertices := some 3,
               handle_moved := -1, cage_complete := true,
               coef := some { id := 1, components := 6 }, image_map := none,
               node_preview := some 2, idle_id := 0, sources := [] } ∧
    ¬ (∀ (env : Env) (ct : GimpCageTool) (display : GimpDisplay),
        ct.cage_complete = true →
        (gimp_cage_tool_key_press env ct Key.GDK_Return display).2.display = none) := by
  refine ⟨by decide!, by decide!, ?_⟩
  intro h
  have h2 := h channel_env closed_session 0 (by decide!)
  revert h2
  decide!

/-- C11, amended: on an image whose active layer is a drawable, a commit key
press (Return, KP_Enter or ISO_Enter) on a completed cage ends with the session
halted, in every state that holds a coefficient buffer and in every state the
tool can reach: config, coefficient buffer, preview job and preview graph are
absent and the display of the tool is unset. -/
theorem commit_key_halts_session (env : Env) (ct : GimpCageTool) (kevent : Key)
    (display : GimpDisplay)
    (hk : kevent = Key.GDK_Return ∨ kevent = Key.GDK_KP_Enter ∨ kevent = Key.GDK_ISO_Enter)
    (hc : ct.cage_complete = true)
    (hl : env.active_layer_is_drawable display = true) :
    (gimp_cage_tool_key_press env ct kevent display).1 = true ∧
    ((ct.coef ≠ none ∨ Reachable env ct) →
      (gimp_cage_tool_key_press env ct kevent display).2.config = none ∧
      (gimp_cage_tool_key_press env ct kevent display).2.coef = none ∧
      (gimp_cage_tool_key_press env ct kevent display).2.image_map = none ∧
      (gimp_cage_tool_key_press env ct kevent display).2.node_preview = none ∧
      (gimp_cage_tool_key_press env ct kevent display).2.display = none) := by
  obtain ⟨ct1, e, k1, k2, k3, k4, k5, _⟩ := commit_key_eq env ct kevent display hk hc
  rw [e]
  refine ⟨rfl, ?_⟩
  have hsome : ct.coef ≠ none →
      (gimp_cage_tool_process env ct1 display).config = none ∧
      (gimp_cage_tool_process env ct1 display).coef = none ∧
      (gimp_cage_tool_process env ct1 display).image_map = none ∧
      (gimp_cage_tool_process env ct1 display).node_preview = none ∧
      (gimp_cage_tool_process env ct1 display).display = none := by
    intro hcoef
    cases hb : ct1.coef with
    | none => rw [k1] at hb; exact absurd hb hcoef
    | some b =>
      simp only [gimp_cage_tool_process, hb, hl, if_true]
      split_ifs <;> simp [halt_eq]
  rintro (hcoef | hr)
  · exact hsome hcoef
  · by_cases hcoef : ct.coef = none
    · have hd : ct.display = none := by
        by_contra hd
        exact (reachable_consistent env ct hr).2 hd hc hcoef
      obtain ⟨o1, o2⟩ := reachable_off_released env ct hr hd hc
      have hb : ct1.coef = none := by rw [k1, hcoef]
      simp [gimp_cage_tool_process, hb, emit, k2, k3, k4, k5, o1, o2, hd]
    · exact hsome hcoef

/-- C11, amended, at the closed triangle on an image with an active layer: the
Return key halts the session. -/
theorem commit_key_halts_session_witness :
    closed_session.cage_complete = true ∧
    spec_env.active_layer_is_drawable 0 = true ∧
    closed_session.coef ≠ none ∧
    (gimp_cage_tool_key_press spec_env closed_session Key.GDK_Return 0).1 = true ∧
    (gimp_cage_tool_key_press spec_env closed_session Key.GDK_Return 0).2.config = none ∧
    (gimp_cage_tool_key_press spec_env closed_session Key.GDK_Return 0).2.coef = none ∧
    (gimp_cage_tool_key_press spec_env closed_session Key.GDK_Return 0).2.image_map = none ∧
    (gimp_cage_tool_key_press spec_env closed_session Key.GDK_Return 0).2.node_preview = none ∧
    (gimp_cage_tool_key_press spec_env closed_session Key.GDK_Return 0).2.display = none :=
  have h := commit_key_halts_session spec_env closed_session Key.GDK_Return 0
    (Or.inl rfl) (by decide!) rfl
  ⟨by decide!, rfl, by decide!, h.1, h.2 (Or.inl (by decide!))⟩

/-! ## The calls of each handler -/

theorem watched_halt_calls (ct : GimpCageTool) : (halt_calls ct).filter watched = [] := by
  unfold halt_calls
  cases ct.config <;> cases ct.coef <;> cases ct.image_map <;> cases ct.node_preview <;>
    simp [watched]

/-- A halt makes no watched call. -/
theorem halt_log (ct : GimpCageTool) :
    ∃ calls : List Effect, (gimp_cage_tool_halt ct).log = ct.log ++ calls ∧
      calls.filter watched = [] :=
  ⟨halt_calls ct, by rw [halt_eq], watched_halt_calls ct⟩

/-- A start makes no watched call. -/
theorem start_log (env : Env) (ct : GimpCageTool) (display : GimpDisplay) :
    ∃ calls : List Effect, (gimp_cage_tool_start env ct display).log = ct.log ++ calls ∧
      calls.filter watched = [] := by
  unfold gimp_cage_tool_start
  cases ct.config <;> cases ct.image_map <;>
    exact ⟨_, by simp only [emit, List.append_assoc]; rfl, by simp [watched]⟩

/-- The first part of a button press makes no watched call. -/
theorem grab_or_add_log (env : Env) (ct : GimpCageTool) (coords : GimpVector2)
    (display : GimpDisplay) :
    ∃ calls : List Effect,
      (button_press_grab_or_add env ct coords display).log = ct.log ++ calls ∧
      calls.filter watched = [] := by
  have same : ∀ c : GimpCageTool, c.display = some display →
      ∃ calls : List Effect,
        (button_press_grab_or_add env c coords display).log = c.log ++ calls ∧
        calls.filter watched = [] := by
    intro c hd
    obtain ⟨calls, h1, h2⟩ := grab_or_add_calls env c coords display hd
    refine ⟨calls, h1, ?_⟩
    rw [List.filter_eq_nil_iff]
    intro e he
    rcases h2 e he with h | h <;> simp [h, watched]
  by_cases hd : ct.display = some display
  · exact same ct hd
  · obtain ⟨c1, a1, a2⟩ := start_log env ct display
    obtain ⟨c2, b1, b2⟩ := same _ (start_sets env ct display).1
    refine ⟨c1 ++ c2, ?_, by simp [a2, b2]⟩
    rw [grab_or_add_start env ct coords display hd, b1, a1, List.append_assoc]

/-- The closing branch of a button press normalises the winding order once and
makes no other watched call. -/
theorem button_press_close_log (env : Env) (ct ct2 : GimpCageTool) (display : GimpDisplay)
    (h : button_press_close env ct display = some ct2) :
    ∃ calls : List Effect, ct2.log = ct.log ++ calls ∧
      calls.filter watched = [Effect.reverse_cage_if_needed] := by
  unfold button_press_close gimp_cage_tool_compute_coef gimp_cage_tool_prepare_preview
    gimp_cage_tool_switch_to_deform at h
  cases hcfg : ct.config with
  | none => simp [hcfg, emit] at h
  | some c =>
    cases hcoef : ct.coef <;> cases hnode : ct.node_preview <;>
      simp [hcfg, hcoef, hnode, emit] at h <;> subst h <;>
      exact ⟨_, by simp only [List.append_assoc]; rfl, by simp [watched]⟩

/-- A button press normalises the winding order at most once, and only when it
closes the cage: then no coefficient buffer was held before and one is held
after. It makes no other watched call. -/
theorem button_press_log (env : Env) (ct ct2 : GimpCageTool) (coords : GimpVector2)
    (display : GimpDisplay)
    (hp : gimp_cage_tool_button_press env ct coords display = some ct2) :
    ∃ calls : List Effect, ct2.log = ct.log ++ calls ∧
      ((calls.filter watched = [] ∧ (ct.coef ≠ none → ct2.coef ≠ none)) ∨
       (calls.filter watched = [Effect.reverse_cage_if_needed] ∧
        ct.coef = none ∧ ct2.coef ≠ none ∧ ct2.cage_complete = true)) := by
  have hcoef : (button_press_grab_or_add env ct coords display).coef = ct.coef := by
    by_cases hd : ct.display = some display
    · exact (grab_or_add_frame env ct coords display hd).2.2.2.1
    · rw [grab_or_add_start env ct coords display hd,
        (grab_or_add_frame env _ coords display (start_sets env ct display).1).2.2.2.1]
      exact (start_frame env ct display).1
  obtain ⟨c1, a1, a2⟩ := grab_or_add_log env ct coords display
  have hpre : ∃ calls : List Effect,
      (button_press_grab_or_add env ct coords display).log = ct.log ++ calls ∧
      ((calls.filter watched = [] ∧
          (ct.coef ≠ none → (button_press_grab_or_add env ct coords display).coef ≠ none)) ∨
       (calls.filter watched = [Effect.reverse_cage_if_needed] ∧
        ct.coef = none ∧ (button_press_grab_or_add env ct coords display).coef ≠ none ∧
        (button_press_grab_or_add env ct coords display).cage_complete = true)) :=
    ⟨c1, a1, Or.inl ⟨a2, fun h => by rw [hcoef]; exact h⟩⟩
  simp only [gimp_cage_tool_button_press] at hp
  split_ifs at hp with h0
  · cases hcfg : (button_press_grab_or_add env ct coords display).config with
    | none => simp [hcfg] at hp
    | some c =>
      simp only [hcfg] at hp
      split_ifs at hp with h1
      · obtain ⟨c2, b1, b2⟩ := button_press_close_log env _ ct2 display hp
        obtain ⟨_, s2, _, s4, _⟩ := button_press_close_some env _ ct2 display hp
        refine ⟨c1 ++ c2, by rw [b1, a1, List.append_assoc], Or.inr ⟨by simp [a2, b2], ?_, s4, s2⟩⟩
        rw [← hcoef]
        exact h1.2
      · simp only [Option.some.injEq] at hp
        rw [← hp]
        exact hpre
  · simp only [Option.some.injEq] at hp
    rw [← hp]
    exact hpre

/-- A button release makes no watched call and leaves the coefficient buffer. -/
theorem button_release_log (ct : GimpCageTool) :
    ∃ calls : List Effect, (gimp_cage_tool_button_release ct).log = ct.log ++ calls ∧
      calls.filter watched = [] ∧ (gimp_cage_tool_button_release ct).coef = ct.coef := by
  unfold gimp_cage_tool_button_release
  split_ifs
  · exact ⟨_, by simp only [emit, gimp_draw_tool_pause, gimp_draw_tool_resume,
      List.append_assoc]; rfl, by simp [watched], by
      simp [emit, gimp_draw_tool_pause, gimp_draw_tool_resume]⟩
  · exact ⟨[], by simp, by simp, rfl⟩

/-- A motion event makes no watched call and leaves the coefficient buffer. -/
theorem motion_log (env : Env) (ct : GimpCageTool) (coords : GimpVector2) :
    ∃ calls : List Effect, (gimp_cage_tool_motion env ct coords).log = ct.log ++ calls ∧
      calls.filter watched = [] ∧ (gimp_cage_tool_motion env ct coords).coef = ct.coef := by
  simp only [gimp_cage_tool_motion]
  split_ifs
  · exact ⟨_, by simp only [emit, gimp_draw_tool_pause, gimp_draw_tool_resume]; rfl, by
      simp [watched], by simp [emit, gimp_draw_tool_pause, gimp_draw_tool_resume]⟩
  · exact ⟨[], by simp [gimp_draw_tool_pause, gimp_draw_tool_resume], by simp, by
      simp [gimp_draw_tool_pause, gimp_draw_tool_resume]⟩

/-- The watched calls of `gimp_cage_tool_process` are its merges; without
rendering it leaves the coefficient buffer. -/
theorem process_log (env : Env) (ct : GimpCageTool) (display : GimpDisplay) :
    ∃ calls : List Effect, (gimp_cage_tool_process env ct display).log = ct.log ++ calls ∧
      calls.filter watched = process_merges env ct display ∧
      (¬ (ct.coef ≠ none ∧ env.active_layer_is_drawable display = true) →
        (gimp_cage_tool_process env ct display).coef = ct.coef) := by
  unfold gimp_cage_tool_process process_merges
  cases hcoef : ct.coef with
  | none => exact ⟨_, by simp only [emit]; rfl, by simp [watched], fun _ => by simp [emit, hcoef]⟩
  | some b =>
    cases hl : env.active_layer_is_drawable display with
    | true =>
      cases hm : env.layer_has_mask display <;>
        refine ⟨_, by
          rw [halt_eq]
          simp only [emit, gimp_cage_tool_process_drawable, List.append_assoc, if_true,
            Bool.false_eq_true, if_false]
          rfl, ?_, fun h => absurd ⟨by simp, rfl⟩ h⟩ <;>
        simp [watched, watched_halt_calls]
    | false =>
      exact ⟨[], by simp, by simp, fun _ => by simp [hcoef]⟩

/-- Before it gets to `gimp_cage_tool_process`, a commit key on a completed cage
makes no watched call and leaves the coefficient buffer. -/
theorem commit_key_log (env : Env) (ct : GimpCageTool) (kevent : Key) (display : GimpDisplay)
    (hk : is_commit_key kevent = true) (hc : ct.cage_complete = true) :
    ∃ (ct1 : GimpCageTool) (calls : List Effect),
      gimp_cage_tool_key_press env ct kevent display
        = (true, gimp_cage_tool_process env ct1 display) ∧
      ct1.coef = ct.coef ∧ ct1.log = ct.log ++ calls ∧ calls.filter watched = [] := by
  by_cases hi : ct.idle_id ≠ 0
  · refine ⟨{ g_source_remove
        ({ emit (emit ct (Effect.image_map_abort ct.image_map))
            (Effect.image_map_unref ct.image_map) with image_map := none }) ct.idle_id
        with idle_id := 0 }, _, ?_, rfl, by
          simp only [emit, g_source_remove, List.append_assoc]; rfl, by simp [watched]⟩
    cases kevent <;> simp [is_commit_key] at hk <;>
      simp [gimp_cage_tool_key_press, hc, emit, hi, g_source_remove]
  · refine ⟨{ emit (emit ct (Effect.image_map_abort ct.image_map))
        (Effect.image_map_unref ct.image_map) with image_map := none }, _, ?_, rfl, by
          simp only [emit, List.append_assoc]; rfl, by simp [watched]⟩
    cases kevent <;> simp [is_commit_key] at hk <;>
      simp [gimp_cage_tool_key_press, hc, emit, hi]

/-- The watched calls of a key press are merges, made only by a commit key on a
completed cage; a key press that does not halt leaves a held coefficient
buffer. -/
theorem key_press_log (env : Env) (ct : GimpCageTool) (kevent : Key) (display : GimpDisplay) :
    ∃ calls : List Effect,
      (gimp_cage_tool_key_press env ct kevent display).2.log = ct.log ++ calls ∧
      calls.filter watched
        = (if is_commit_key kevent = true ∧ ct.cage_complete = true then
            process_merges env ct display else []) ∧
      (halts env ct (Event.key_press kevent display) = false → ct.coef ≠ none →
        (gimp_cage_tool_key_press env ct kevent display).2.coef ≠ none) := by
  by_cases hk : is_commit_key kevent = true
  · by_cases hc : ct.cage_complete = true
    · obtain ⟨ct1, c1, e, k1, k2, k3⟩ := commit_key_log env ct kevent display hk hc
      obtain ⟨c2, p1, p2, p3⟩ := process_log env ct1 display
      have hm : process_merges env ct1 display = process_merges env ct display := by
        simp only [process_merges, k1]
      rw [e]
      refine ⟨c1 ++ c2, by simp only [p1, k2, List.append_assoc], by
        simp [k3, p2, hm, hk, hc], ?_⟩
      intro hh hcoef
      have hnot : ¬ (ct1.coef ≠ none ∧ env.active_layer_is_drawable display = true) := by
        rintro ⟨_, hl⟩
        cases hb : ct.coef with
        | none => exact hcoef hb
        | some b => simp [halts, hk, hc, hb, hl] at hh
      simp only []
      rw [p3 hnot, k1]
      exact hcoef
    · have e : gimp_cage_tool_key_press env ct kevent display = (true, ct) := by
        cases kevent <;> simp [is_commit_key] at hk <;>
          simp [gimp_cage_tool_key_press, hc]
      rw [e]
      exact ⟨[], by simp, by simp [hc], fun _ h => h⟩
  · cases kevent <;> simp [is_commit_key] at hk
    · refine ⟨[Effect.remove_last_cage_point], ?_, by simp [watched, is_commit_key], ?_⟩
      · simp [gimp_cage_tool_key_press, gimp_cage_tool_remove_last_handle, emit,
          gimp_draw_tool_pause, gimp_draw_tool_resume]
      · intro _ h
        simpa [gimp_cage_tool_key_press, gimp_cage_tool_remove_last_handle, emit,
          gimp_draw_tool_pause, gimp_draw_tool_resume] using h
    · obtain ⟨c, h1, h2⟩ := halt_log ct
      exact ⟨c, by simpa [gimp_cage_tool_key_press] using h1, by
        simp [h2, is_commit_key], fun hh => by simp [halts] at hh⟩
    · exact ⟨[], by simp [gimp_cage_tool_key_press], by simp [is_commit_key], fun _ h => by
        simpa [gimp_cage_tool_key_press] using h⟩

/-- The HALT action makes no watched call; the other actions also leave the
coefficient buffer. -/
theorem control_log (env : Env) (ct : GimpCageTool) (action : GimpToolAction) :
    ∃ calls : List Effect, (gimp_cage_tool_control ct action).log = ct.log ++ calls ∧
      calls.filter watched = [] ∧
      (halts env ct (Event.control action) = false →
        (gimp_cage_tool_control ct action).coef = ct.coef) := by
  cases action
  · exact ⟨_, by simp only [gimp_cage_tool_control, emit]; rfl, by simp [watched], fun _ => by
      simp [gimp_cage_tool_control, emit]⟩
  · exact ⟨_, by simp only [gimp_cage_tool_control, emit]; rfl, by simp [watched], fun _ => by
      simp [gimp_cage_tool_control, emit]⟩
  · obtain ⟨c, h1, h2⟩ := halt_log ct
    exact ⟨c ++ [Effect.parent_control GimpToolAction.HALT], by
      simp [gimp_cage_tool_control, emit, h1], by simp [h2, watched], fun hh => by
      simp [halts] at hh⟩

/-- The preview poll makes no watched call and leaves the coefficient buffer. -/
theorem dispatch_idle_log (ct ct2 : GimpCageTool) (source : Nat) (busy : Bool)
    (hd : dispatch_idle ct source busy = some ct2) :
    ∃ calls : List Effect, ct2.log = ct.log ++ calls ∧
      calls.filter watched = [] ∧ ct2.coef = ct.coef := by
  unfold dispatch_idle gimp_cage_tool_update_preview at hd
  cases him : ct.image_map <;> cases busy <;>
    simp [him, emit] at hd <;> obtain ⟨_, hd⟩ := hd <;> subst hd <;>
    first
    | (refine ⟨[], ?_, ?_, rfl⟩ <;> simp <;> done)
    | exact ⟨_, by simp only [List.append_assoc]; rfl, by simp [watched], rfl⟩

/-! ## The calls of a sequence of events -/

/-- The calls between two states whose record of calls extends the other. -/
theorem calls_during_append (ct ct2 : GimpCageTool) (calls : List Effect)
    (h : ct2.log = ct.log ++ calls) : calls_during ct ct2 = calls := by
  simp [calls_during, h]

/-- A watched call that is made is among the watched calls. -/
theorem mem_watched (calls : List Effect) (e : Effect) (he : e ∈ calls)
    (hw : watched e = true) : e ∈ calls.filter watched :=
  List.mem_filter.2 ⟨he, hw⟩

/-- The count of normalisations among the calls is that among the watched
calls. -/
theorem count_reverse_watched (calls : List Effect) :
    calls.count Effect.reverse_cage_if_needed
      = (calls.filter watched).count Effect.reverse_cage_if_needed := by
  rw [List.count_filter]
  rfl

/-- The merges of `gimp_cage_tool_process` are merges. -/
theorem process_merges_mem (env : Env) (ct : GimpCageTool) (display : GimpDisplay)
    (e : Effect) (he : e ∈ process_merges env ct display) :
    ∃ t, e = Effect.merge_shadow_tiles display t := by
  unfold process_merges at he
  split_ifs at he <;> simp at he
  · rcases he with h | h
    · exact ⟨_, h⟩
    · exact ⟨_, h⟩
  · exact ⟨_, he⟩

/-- One event: the calls it makes commit no preview job, merge shadow tiles only
for a commit key on a completed cage, and normalise the winding order either
not at all, or once, in a button press that finds no coefficient buffer and
leaves one with the cage completed. An event that does not halt and does not
normalise leaves a held coefficient buffer. -/
theorem step_log (env : Env) (ct ct2 : GimpCageTool) (e : Event)
    (hs : step env ct e = some ct2) :
    ∃ calls : List Effect, ct2.log = ct.log ++ calls ∧
      (∀ m, Effect.image_map_commit m ∉ calls) ∧
      (∀ d t, Effect.merge_shadow_tiles d t ∈ calls →
        ∃ kevent display, e = Event.key_press kevent display ∧
          is_commit_key kevent = true ∧ ct.cage_complete = true) ∧
      ((calls.count Effect.reverse_cage_if_needed = 0 ∧
          (halts env ct e = false → ct.coef ≠ none → ct2.coef ≠ none)) ∨
       (calls.count Effect.reverse_cage_if_needed = 1 ∧
          (∃ coords display, e = Event.button_press coords display) ∧
          ct.coef = none ∧ ct2.coef ≠ none ∧ ct2.cage_complete = true)) := by
  have quiet : ∀ calls : List Effect, calls.filter watched = [] →
      (∀ m, Effect.image_map_commit m ∉ calls) ∧
      (∀ d t, Effect.merge_shadow_tiles d t ∉ calls) ∧
      calls.count Effect.reverse_cage_if_needed = 0 := by
    intro calls h
    refine ⟨fun m hm => ?_, fun d t hm => ?_, by rw [count_reverse_watched, h]; rfl⟩
    · have := mem_watched calls _ hm rfl
      rw [h] at this
      simp at this
    · have := mem_watched calls _ hm rfl
      rw [h] at this
      simp at this
  cases e with
  | button_press coords display =>
    obtain ⟨calls, h1, h2⟩ := button_press_log env ct ct2 coords display hs
    rcases h2 with ⟨h2, h3⟩ | ⟨h2, h3, h4, h5⟩
    · obtain ⟨q1, q2, q3⟩ := quiet calls h2
      exact ⟨calls, h1, q1, fun d t hm => absurd hm (q2 d t), Or.inl ⟨q3, fun _ => h3⟩⟩
    · refine ⟨calls, h1, fun m hm => ?_, fun d t hm => ?_, Or.inr ⟨?_, ⟨coords, display, rfl⟩,
        h3, h4, h5⟩⟩
      · have := mem_watched calls _ hm rfl
        rw [h2] at this
        simp at this
      · have := mem_watched calls _ hm rfl
        rw [h2] at this
        simp at this
      · rw [count_reverse_watched, h2]
        rfl
  | button_release =>
    simp only [step, Option.some.injEq] at hs
    subst hs
    obtain ⟨calls, h1, h2, h3⟩ := button_release_log ct
    obtain ⟨q1, q2, q3⟩ := quiet calls h2
    exact ⟨calls, h1, q1, fun d t hm => absurd hm (q2 d t), Or.inl ⟨q3, fun _ h => by
      rw [h3]; exact h⟩⟩
  | motion coords =>
    simp only [step, Option.some.injEq] at hs
    subst hs
    obtain ⟨calls, h1, h2, h3⟩ := motion_log env ct coords
    obtain ⟨q1, q2, q3⟩ := quiet calls h2
    exact ⟨calls, h1, q1, fun d t hm => absurd hm (q2 d t), Or.inl ⟨q3, fun _ h => by
      rw [h3]; exact h⟩⟩
  | key_press kevent display =>
    simp only [step, Option.some.injEq] at hs
    subst hs
    obtain ⟨calls, h1, h2, h3⟩ := key_press_log env ct kevent display
    by_cases hk : is_commit_key kevent = true ∧ ct.cage_complete = true
    · rw [if_pos hk] at h2
      refine ⟨calls, h1, fun m hm => ?_, fun d t _ => ⟨kevent, display, rfl, hk.1, hk.2⟩,
        Or.inl ⟨?_, h3⟩⟩
      · have := mem_watched calls _ hm rfl
        rw [h2] at this
        obtain ⟨t, ht⟩ := process_merges_mem env ct display _ this
        cases ht
      · rw [count_reverse_watched, h2, List.count_eq_zero]
        intro hm
        obtain ⟨t, ht⟩ := process_merges_mem env ct display _ hm
        cases ht
    · rw [if_neg hk] at h2
      obtain ⟨q1, q2, q3⟩ := quiet calls h2
      exact ⟨calls, h1, q1, fun d t hm => absurd hm (q2 d t), Or.inl ⟨q3, h3⟩⟩
  | control action =>
    simp only [step, Option.some.injEq] at hs
    subst hs
    obtain ⟨calls, h1, h2, h3⟩ := control_log env ct action
    obtain ⟨q1, q2, q3⟩ := quiet calls h2
    exact ⟨calls, h1, q1, fun d t hm => absurd hm (q2 d t), Or.inl ⟨q3, fun hh h => by
      rw [h3 hh]; exact h⟩⟩
  | oper_update coords display =>
    simp only [step, Option.some.injEq] at hs
    subst hs
    refine ⟨[], ?_, by simp, by simp, Or.inl ⟨by simp, fun _ h => ?_⟩⟩
    · simp only [gimp_cage_tool_oper_update]
      split_ifs <;> simp [gimp_draw_tool_pause, gimp_draw_tool_resume]
    · simp only [gimp_cage_tool_oper_update]
      split_ifs <;> simpa [gimp_draw_tool_pause, gimp_draw_tool_resume] using h
  | idle source busy =>
    obtain ⟨calls, h1, h2, h3⟩ := dispatch_idle_log ct ct2 source busy hs
    obtain ⟨q1, q2, q3⟩ := quiet calls h2
    exact ⟨calls, h1, q1, fun d t hm => absurd hm (q2 d t), Or.inl ⟨q3, fun _ h => by
      rw [h3]; exact h⟩⟩
  | set_cage_mode mode =>
    simp only [step, Option.some.injEq] at hs
    subst hs
    exact ⟨[], by simp, by simp, by simp, Or.inl ⟨by simp, fun _ h => h⟩⟩

/-- A run: the record of calls only grows, no preview job is committed, and
every merge of shadow tiles is made by a commit key that found the cage
completed. -/
theorem run_log (env : Env) (evs : List Event) :
    ∀ ct ct2 : GimpCageTool, run env ct evs = some ct2 →
      ∃ calls : List Effect, ct2.log = ct.log ++ calls ∧
        (∀ m, Effect.image_map_commit m ∉ calls) ∧
        (∀ d t, Effect.merge_shadow_tiles d t ∈ calls →
          ∃ (before after : List Event) (kevent : Key) (display : GimpDisplay)
            (ct1 : GimpCageTool),
            evs = before ++ Event.key_press kevent display :: after ∧
            run env ct before = some ct1 ∧
            is_commit_key kevent = true ∧ ct1.cage_complete = true) := by
  induction evs with
  | nil =>
    intro ct ct2 h
    simp only [run, Option.some.injEq] at h
    subst h
    exact ⟨[], by simp, by simp, by simp⟩
  | cons e es ih =>
    intro ct ct2 h
    simp only [run] at h
    cases hstep : step env ct e with
    | none => simp [hstep] at h
    | some ct1 =>
      rw [hstep] at h
      simp only [Option.some_bind] at h
      obtain ⟨c1, a1, a2, a3, _⟩ := step_log env ct ct1 e hstep
      obtain ⟨c2, b1, b2, b3⟩ := ih ct1 ct2 h
      refine ⟨c1 ++ c2, by rw [b1, a1, List.append_assoc], ?_, ?_⟩
      · intro m hm
        rcases List.mem_append.1 hm with hm | hm
        · exact a2 m hm
        · exact b2 m hm
      · intro d t hm
        rcases List.mem_append.1 hm with hm | hm
        · obtain ⟨k, disp, he, hk, hc⟩ := a3 d t hm
          exact ⟨[], es, k, disp, ct, by simp [he], rfl, hk, hc⟩
        · obtain ⟨before, after, k, disp, ct3, he, hr, hk, hc⟩ := b3 d t hm
          refine ⟨e :: before, after, k, disp, ct3, by simp [he], ?_, hk, hc⟩
          simp only [run, hstep, Option.some_bind]
          exact hr

/-- A run without a halt normalises the winding order at most once, and not at
all from a state that holds a coefficient buffer. -/
theorem run_reverse_count (env : Env) (evs : List Event) :
    ∀ ct ct2 : GimpCageTool, run env ct evs = some ct2 → halt_free env ct evs = true →
      ∃ calls : List Effect, ct2.log = ct.log ++ calls ∧
        calls.count Effect.reverse_cage_if_needed ≤ 1 ∧
        (ct.coef ≠ none →
          calls.count Effect.reverse_cage_if_needed = 0 ∧ ct2.coef ≠ none) ∧
        (calls.count Effect.reverse_cage_if_needed = 1 → ct2.coef ≠ none) := by
  induction evs with
  | nil =>
    intro ct ct2 h _
    simp only [run, Option.some.injEq] at h
    subst h
    exact ⟨[], by simp, by simp, fun h => ⟨by simp, h⟩, by simp⟩
  | cons e es ih =>
    intro ct ct2 h hq
    simp only [run] at h
    cases hstep : step env ct e with
    | none => simp [hstep] at h
    | some ct1 =>
      rw [hstep] at h
      simp only [Option.some_bind] at h
      simp only [halt_free, hstep, Bool.and_eq_true, Bool.not_eq_true'] at hq
      obtain ⟨c1, a1, _, _, a4⟩ := step_log env ct ct1 e hstep
      obtain ⟨c2, b1, b2, b3, b4⟩ := ih ct1 ct2 h hq.2
      refine ⟨c1 ++ c2, by rw [b1, a1, List.append_assoc], ?_, ?_, ?_⟩
      · rw [List.count_append]
        rcases a4 with ⟨a5, _⟩ | ⟨a5, _, _, a8, _⟩
        · omega
        · have := (b3 a8).1
          omega
      · intro hcoef
        rw [List.count_append]
        rcases a4 with ⟨a5, a6⟩ | ⟨_, _, a7, _, _⟩
        · obtain ⟨k1, k2⟩ := b3 (a6 hq.1 hcoef)
          exact ⟨by omega, k2⟩
        · exact absurd a7 hcoef
      · intro hone
        rw [List.count_append] at hone
        rcases a4 with ⟨a5, _⟩ | ⟨_, _, _, a8, _⟩
        · exact b4 (by omega)
        · exact (b3 a8).2

/-- The commit keys are Return, KP_Enter and ISO_Enter. -/
theorem is_commit_key_iff (kevent : Key) :
    is_commit_key kevent = true
      ↔ (kevent = Key.GDK_Return ∨ kevent = Key.GDK_KP_Enter ∨ kevent = Key.GDK_ISO_Enter) := by
  cases kevent <;> simp [is_commit_key]

/-- In a reachable state no preview job has been committed. -/
theorem reachable_no_commit (env : Env) (ct : GimpCageTool) (h : Reachable env ct) :
    ∀ m, Effect.image_map_commit m ∉ ct.log := by
  induction h with
  | init mode => simp [gimp_cage_tool_init]
  | step ct ct2 e _ hs ih =>
    obtain ⟨calls, h1, h2, _⟩ := step_log env ct ct2 e hs
    intro m hm
    rw [h1] at hm
    rcases List.mem_append.1 hm with hm | hm
    · exact ih m hm
    · exact h2 m hm

/-- C12: shadow tiles are merged only during a commit key press (Return,
KP_Enter, ISO_Enter) on a completed cage. For one event: a merge among its calls
means the event is such a key press and `cage_complete` was TRUE; so button
press, button release, motion, the preview poll, BackSpace, Escape and a commit
key before the cage is complete merge nothing. For a sequence of events: every
merge among its calls belongs to a commit key press of the sequence that found
the cage completed. A halt merges nothing. No handler commits the preview job,
so no reachable state has a commit among its calls. On the closed triangle the
Return key does merge, into the layer. -/
theorem merge_only_on_commit (env : Env) :
    (∀ (ct ct2 : GimpCageTool) (e : Event), step env ct e = some ct2 →
      (∀ m, Effect.image_map_commit m ∉ calls_during ct ct2) ∧
      (∀ d t, Effect.merge_shadow_tiles d t ∈ calls_during ct ct2 →
        ∃ kevent display, e = Event.key_press kevent display ∧
          (kevent = Key.GDK_Return ∨ kevent = Key.GDK_KP_Enter
            ∨ kevent = Key.GDK_ISO_Enter) ∧
          ct.cage_complete = true)) ∧
    (∀ (ct ct2 : GimpCageTool) (evs : List Event), run env ct evs = some ct2 →
      (∀ m, Effect.image_map_commit m ∉ calls_during ct ct2) ∧
      (∀ d t, Effect.merge_shadow_tiles d t ∈ calls_during ct ct2 →
        ∃ (before after : List Event) (kevent : Key) (display : GimpDisplay)
          (ct1 : GimpCageTool),
          evs = before ++ Event.key_press kevent display :: after ∧
          run env ct before = some ct1 ∧
          (kevent = Key.GDK_Return ∨ kevent = Key.GDK_KP_Enter
            ∨ kevent = Key.GDK_ISO_Enter) ∧
          ct1.cage_complete = true)) ∧
    (∀ ct : GimpCageTool,
      (∀ d t, Effect.merge_shadow_tiles d t ∉ calls_during ct (gimp_cage_tool_halt ct)) ∧
      (∀ m, Effect.image_map_commit m ∉ calls_during ct (gimp_cage_tool_halt ct))) ∧
    (∀ ct : GimpCageTool, Reachable env ct → ∀ m, Effect.image_map_commit m ∉ ct.log) ∧
    (run spec_env (gimp_cage_tool_init GimpCageMode.CAGE_CHANGE) (closing_clicks 0)).map
        (fun ct => (calls_during ct
          (gimp_cage_tool_key_press spec_env ct Key.GDK_Return 0).2).filter watched)
      = some [Effect.merge_shadow_tiles 0 Target.layer] := by
  refine ⟨?_, ?_, ?_, reachable_no_commit env, by decide!⟩
  · intro ct ct2 e hs
    obtain ⟨calls, h1, h2, h3, _⟩ := step_log env ct ct2 e hs
    rw [calls_during_append ct ct2 calls h1]
    refine ⟨h2, fun d t hm => ?_⟩
    obtain ⟨k, disp, he, hk, hc⟩ := h3 d t hm
    exact ⟨k, disp, he, (is_commit_key_iff k).1 hk, hc⟩
  · intro ct ct2 evs hr
    obtain ⟨calls, h1, h2, h3⟩ := run_log env evs ct ct2 hr
    rw [calls_during_append ct ct2 calls h1]
    refine ⟨h2, fun d t hm => ?_⟩
    obtain ⟨before, after, k, disp, ct1, he, hb, hk, hc⟩ := h3 d t hm
    exact ⟨before, after, k, disp, ct1, he, hb, (is_commit_key_iff k).1 hk, hc⟩
  · intro ct
    obtain ⟨calls, h1, h2⟩ := halt_log ct
    rw [calls_during_append ct _ calls h1]
    refine ⟨fun d t hm => ?_, fun m hm => ?_⟩
    · have := mem_watched calls _ hm rfl
      rw [h2] at this
      simp at this
    · have := mem_watched calls _ hm rfl
      rw [h2] at this
      simp at this

/-- C14: in a sequence of events none of which halts the tool, the winding order
is normalised at most once, and not at all when the sequence starts with a
coefficient buffer held. One event normalises at most once, and then it is a
button press that found no coefficient buffer and leaves the cage completed
with one; a button press in a state that holds a coefficient buffer does not
normalise. -/
theorem winding_normalised_once (env : Env) (ct : GimpCageTool) (evs : List Event)
    (hq : halt_free env ct evs = true) :
    (∀ ct2, run env ct evs = some ct2 →
      (calls_during ct ct2).count Effect.reverse_cage_if_needed ≤ 1 ∧
      (ct.coef ≠ none → (calls_during ct ct2).count Effect.reverse_cage_if_needed = 0)) ∧
    (∀ (s s2 : GimpCageTool) (e : Event), step env s e = some s2 →
      (calls_during s s2).count Effect.reverse_cage_if_needed ≤ 1 ∧
      (Effect.reverse_cage_if_needed ∈ calls_during s s2 →
        (∃ coords display, e = Event.button_press coords display) ∧
        s.coef = none ∧ s2.cage_complete = true ∧ s2.coef ≠ none)) ∧
    (∀ (s s2 : GimpCageTool) (coords : GimpVector2) (display : GimpDisplay),
      gimp_cage_tool_button_press env s coords display = some s2 → s.coef ≠ none →
      Effect.reverse_cage_if_needed ∉ calls_during s s2) := by
  have one : ∀ (s s2 : GimpCageTool) (e : Event), step env s e = some s2 →
      (calls_during s s2).count Effect.reverse_cage_if_needed ≤ 1 ∧
      (Effect.reverse_cage_if_needed ∈ calls_during s s2 →
        (∃ coords display, e = Event.button_press coords display) ∧
        s.coef = none ∧ s2.cage_complete = true ∧ s2.coef ≠ none) := by
    intro s s2 e hs
    obtain ⟨calls, h1, _, _, h4⟩ := step_log env s s2 e hs
    rw [calls_during_append s s2 calls h1]
    rcases h4 with ⟨h5, _⟩ | ⟨h5, h6, h7, h8, h9⟩
    · refine ⟨by omega, fun hm => ?_⟩
      rw [List.count_eq_zero] at h5
      exact absurd hm h5
    · exact ⟨by omega, fun _ => ⟨h6, h7, h9, h8⟩⟩
  refine ⟨?_, one, ?_⟩
  · intro ct2 hr
    obtain ⟨calls, h1, h2, h3, _⟩ := run_reverse_count env evs ct ct2 hr hq
    rw [calls_during_append ct ct2 calls h1]
    exact ⟨h2, fun h => (h3 h).1⟩
  · intro s s2 coords display hp hcoef hm
    have hs : step env s (Event.button_press coords display) = some s2 := hp
    exact hcoef ((one s s2 _ hs).2 hm).2.1

/-- C14 on the session that closes the triangle and clicks its first handle
two more times: no event halts, and the winding order is normalised once. -/
theorem winding_normalised_once_witness :
    halt_free spec_env (gimp_cage_tool_init GimpCageMode.CAGE_CHANGE)
      closing_and_more_clicks = true ∧
    (run spec_env (gimp_cage_tool_init GimpCageMode.CAGE_CHANGE)
        closing_and_more_clicks).map
      (fun ct2 => (calls_during (gimp_cage_tool_init GimpCageMode.CAGE_CHANGE) ct2).count
        Effect.reverse_cage_if_needed) = some 1 ∧
    (∀ ct2, run spec_env (gimp_cage_tool_init GimpCageMode.CAGE_CHANGE)
        closing_and_more_clicks = some ct2 →
      (calls_during (gimp_cage_tool_init GimpCageMode.CAGE_CHANGE) ct2).count
          Effect.reverse_cage_if_needed ≤ 1 ∧
      ((gimp_cage_tool_init GimpCageMode.CAGE_CHANGE).coef ≠ none →
        (calls_during (gimp_cage_tool_init GimpCageMode.CAGE_CHANGE) ct2).count
          Effect.reverse_cage_if_needed = 0)) :=
  ⟨by decide!, by decide!,
    (winding_normalised_once spec_env (gimp_cage_tool_init GimpCageMode.CAGE_CHANGE)
      closing_and_more_clicks (by decide!)).1⟩

/-! ## The hit test after a press that adds a vertex -/

/-- The session of `restarted_session` is what its events lead to. -/
theorem restarted_session_run :
    run spec_env (gimp_cage_tool_init GimpCageMode.CAGE_CHANGE)
        (closing_clicks 0 ++ [Event.button_press { x := 0, y := 0 } 1])
      = some restarted_session :=
  eq_some_getD _ _ (by decide!)

/-- The session of `uncommitted_session` is what its events lead to. -/
theorem uncommitted_session_run :
    run channel_env (gimp_cage_tool_init GimpCageMode.CAGE_CHANGE)
        (closing_clicks 0 ++ [Event.key_press Key.GDK_Return 0,
          Event.button_press { x := 100, y := 0 } 0])
      = some uncommitted_session :=
  eq_some_getD _ _ (by decide!)

/-- C13 fails on the code. The poll asks `gimp_image_map_is_busy` about whatever
`ct->image_map` points to, and `gimp_cage_tool_start` unrefs the preview job
without clearing that pointer or removing the poll. After a cage is closed on
display 0 (preview job 3, poll 4), a button press on display 1 starts a new
cage: job 3 has been aborted and unreffed, the pointer to it and the poll 4 are
still there. The poll then queries the released job 3, and with the answer
"busy" it returns TRUE and keeps polling. So it is not true that the poll never
queries a job that no longer exists. -/
theorem update_preview_queries_released_job :
    (∀ (ct : GimpCageTool) (m : Nat) (busy : Bool), ct.image_map = some m →
      Effect.image_map_is_busy m
        ∈ calls_during ct (gimp_cage_tool_update_preview ct busy).2 ∧
      (gimp_cage_tool_update_preview ct busy).1 = busy) ∧
    (∀ (env : Env) (ct : GimpCageTool) (display : GimpDisplay) (m : Nat),
      ct.image_map = some m →
      (gimp_cage_tool_start env ct display).image_map = some m ∧
      (gimp_cage_tool_start env ct display).idle_id = ct.idle_id ∧
      (gimp_cage_tool_start env ct display).sources = ct.sources ∧
      Effect.image_map_unref (some m)
        ∈ calls_during ct (gimp_cage_tool_start env ct display)) ∧
    Reachable spec_env restarted_session ∧
    snapshot restarted_session
      = { display := some 1, cage_mode := GimpCageMode.DEFORM, n_cage_vertices := some 1,
          handle_moved := -1, cage_complete := false,
          coef := some { id := 1, components := 6 }, image_map := some 3,
          node_preview := some 2, idle_id := 4, sources := [4] } ∧
    restarted_session.log
      = [Effect.tool_control_activate, Effect.config_unref, Effect.draw_tool_start 0,
         Effect.add_cage_point 0 0, Effect.add_cage_point 100 0, Effect.add_cage_point 0 100,
         Effect.reverse_cage_if_needed, Effect.progress_start, Effect.progress_end,
         Effect.image_map_new 3, Effect.image_map_apply (some 3), Effect.idle_add 4,
         Effect.tool_control_activate, Effect.config_unref,
         Effect.image_map_abort (some 3), Effect.image_map_unref (some 3),
         Effect.draw_tool_start 1, Effect.add_cage_point 0 0] ∧
    (gimp_cage_tool_update_preview restarted_session true).1 = true ∧
    calls_during restarted_session (gimp_cage_tool_update_preview restarted_session true).2
      = [Effect.image_map_is_busy 3] ∧
    (run spec_env (gimp_cage_tool_init GimpCageMode.CAGE_CHANGE)
        (closing_clicks 0 ++ [Event.button_press { x := 0, y := 0 } 1,
          Event.idle 4 true])).map (fun ct => (ct.log, ct.idle_id, ct.sources))
      = some (restarted_session.log ++ [Effect.image_map_is_busy 3], 4, [4]) ∧
    ¬ (∀ (env : Env) (ct : GimpCageTool) (busy : Bool) (m : Nat), Reachable env ct →
        Effect.image_map_is_busy m
          ∈ calls_during ct (gimp_cage_tool_update_preview ct busy).2 →
        Effect.image_map_unref (some m) ∉ ct.log) := by
  have hreach : Reachable spec_env restarted_session :=
    reachable_run spec_env _ _ _ (Reachable.init GimpCageMode.CAGE_CHANGE) restarted_session_run
  have hlog : restarted_session.log
      = [Effect.tool_control_activate, Effect.config_unref, Effect.draw_tool_start 0,
         Effect.add_cage_point 0 0, Effect.add_cage_point 100 0, Effect.add_cage_point 0 100,
         Effect.reverse_cage_if_needed, Effect.progress_start, Effect.progress_end,
         Effect.image_map_new 3, Effect.image_map_apply (some 3), Effect.idle_add 4,
         Effect.tool_control_activate, Effect.config_unref,
         Effect.image_map_abort (some 3), Effect.image_map_unref (some 3),
         Effect.draw_tool_start 1, Effect.add_cage_point 0 0] := by decide!
  have hcalls : calls_during restarted_session
      (gimp_cage_tool_update_preview restarted_session true).2
        = [Effect.image_map_is_busy 3] := by decide!
  refine ⟨?_, ?_, hreach, by decide!, hlog, by decide!, hcalls, by decide!, ?_⟩
  · intro ct m busy him
    cases busy <;> simp [gimp_cage_tool_update_preview, him, calls_during, emit]
  · intro env ct display m him
    obtain ⟨_, f2, _, f4, f5, _⟩ := start_frame env ct display
    refine ⟨by rw [f2, him], f4, f5, ?_⟩
    unfold gimp_cage_tool_start
    cases ct.config <;> simp [him, emit, calls_during]
  · intro h
    have h1 := h spec_env restarted_session true 3 hreach (by rw [hcalls]; simp)
    rw [hlog] at h1
    simp at h1

/-- C17 fails on the code. `gimp_cage_tool_button_release` tests the coefficient
buffer and the grabbed handle, not the preview job, before it calls
`gimp_image_map_apply (ct->image_map, ...)` and registers the poll. On an image
without active layer the Return key on a closed cage aborts and drops the
preview job and renders nothing, so the session goes on with its coefficient
buffer and without a preview job; a press on the handle at (100,0) grabs it, and
the release calls `gimp_image_map_apply` on `NULL`, which applies nothing, and
registers the poll 5. So with a coefficient buffer and a grabbed handle the
preview is not applied. -/
theorem button_release_applies_missing_preview_job :
    (∀ ct : GimpCageTool, ct.coef ≠ none → ct.handle_moved > -1 →
      calls_during ct (gimp_cage_tool_button_release ct)
        = [Effect.image_map_apply ct.image_map, Effect.idle_add ct.next_id] ∧
      (gimp_cage_tool_button_release ct).idle_id = ct.next_id ∧
      (gimp_cage_tool_button_release ct).image_map = ct.image_map) ∧
    Reachable channel_env uncommitted_session ∧
    snapshot uncommitted_session
      = { display := some 0, cage_mode := GimpCageMode.DEFORM, n_cage_vertices := some 3,
          handle_moved := 1, cage_complete := true,
          coef := some { id := 1, components := 6 }, image_map := none,
          node_preview := some 2, idle_id := 0, sources := [] } ∧
    calls_during uncommitted_session (gimp_cage_tool_button_release uncommitted_session)
      = [Effect.image_map_apply none, Effect.idle_add 5] ∧
    snapshot (gimp_cage_tool_button_release uncommitted_session)
      = { display := some 0, cage_mode := GimpCageMode.DEFORM, n_cage_vertices := some 3,
          handle_moved := -1, cage_complete := true,
          coef := some { id := 1, components := 6 }, image_map := none,
          node_preview := some 2, idle_id := 5, sources := [5] } ∧
    ¬ (∀ (env : Env) (ct : GimpCageTool), Reachable env ct →
        ct.coef ≠ none → ct.handle_moved > -1 →
        ∃ m, Effect.image_map_apply (some m)
          ∈ calls_during ct (gimp_cage_tool_button_release ct)) := by
  have hreach : Reachable channel_env uncommitted_session :=
    reachable_run channel_env _ _ _ (Reachable.init GimpCageMode.CAGE_CHANGE)
      uncommitted_session_run
  have hcalls : calls_during uncommitted_session
      (gimp_cage_tool_button_release uncommitted_session)
        = [Effect.image_map_apply none, Effect.idle_add 5] := by decide!
  refine ⟨?_, hreach, by decide!, hcalls, by decide!, ?_⟩
  · intro ct h1 h2
    have h : ct.coef ≠ none ∧ ct.handle_moved > -1 := ⟨h1, h2⟩
    simp [gimp_cage_tool_button_release, if_pos h, emit, gimp_draw_tool_pause,
      gimp_draw_tool_resume, calls_during]
  · intro h
    obtain ⟨m, hm⟩ := h channel_env uncommitted_session hreach (by decide!) (by decide!)
    rw [hcalls] at hm
    simp at hm

end GimpCage
